import Mathlib

/-!
Formal model of the credit-note tooling of this repository
(afacturar_nota_credito.py, app_nc_dian.py, app_rips_notas2.py).

Python strings are modelled as lists of characters, Python scalar and
collection values by the inductive type PyVal, and dictionaries by
association lists in insertion order.  Machine floats are modelled by exact
rationals: every float appearing in the verified statements has a short exact
decimal expansion, so no binary rounding is involved.  Code that raises is
modelled with Except or Option; code that consults mutable state
(st.session_state, datetime.now()) takes that state as an explicit argument.
-/

namespace NotasCreditos

/-- Python strings are lists of characters. -/
abbrev Str := List Char

/-- A Python value as it can occur in the JSON documents handled by the
repository: None, str, int, float (modelled as an exact rational), bool,
list, dict. -/
inductive PyVal where
  | none
  | str (s : Str)
  | int (n : Int)
  | float (q : Rat)
  | bool (b : Bool)
  | list (xs : List PyVal)
  | dict (d : List (Str × PyVal))

mutual

/-- Structural (syntactic) equality test on PyVal. -/
def PyVal.beq : PyVal → PyVal → Bool
  | .none, .none => true
  | .str a, .str b => a = b
  | .int a, .int b => a = b
  | .float a, .float b => a = b
  | .bool a, .bool b => a = b
  | .list a, .list b => PyVal.beqList a b
  | .dict a, .dict b => PyVal.beqPairs a b
  | _, _ => false

/-- Elementwise beq on lists of PyVal. -/
def PyVal.beqList : List PyVal → List PyVal → Bool
  | [], [] => true
  | x :: xs, y :: ys => PyVal.beq x y && PyVal.beqList xs ys
  | _, _ => false

/-- Elementwise beq on association lists. -/
def PyVal.beqPairs : List (Str × PyVal) → List (Str × PyVal) → Bool
  | [], [] => true
  | (k, v) :: xs, (k2, v2) :: ys =>
      decide (k = k2) && PyVal.beq v v2 && PyVal.beqPairs xs ys
  | _, _ => false

end

mutual

theorem PyVal.beq_iff : ∀ a b : PyVal, PyVal.beq a b = true ↔ a = b
  | .none, b => by cases b <;> simp [PyVal.beq]
  | .str a, b => by cases b <;> simp [PyVal.beq]
  | .int a, b => by cases b <;> simp [PyVal.beq]
  | .float a, b => by cases b <;> simp [PyVal.beq]
  | .bool a, b => by cases b <;> simp [PyVal.beq]
  | .list a, b => by
      cases b <;> simp [PyVal.beq]
      exact PyVal.beqList_iff a _
  | .dict a, b => by
      cases b <;> simp [PyVal.beq]
      exact PyVal.beqPairs_iff a _

theorem PyVal.beqList_iff : ∀ a b : List PyVal, PyVal.beqList a b = true ↔ a = b
  | [], b => by cases b <;> simp [PyVal.beqList]
  | x :: xs, b => by
      cases b with
      | nil => simp [PyVal.beqList]
      | cons y ys =>
          simp [PyVal.beqList, PyVal.beq_iff x y, PyVal.beqList_iff xs ys]

theorem PyVal.beqPairs_iff :
    ∀ a b : List (Str × PyVal), PyVal.beqPairs a b = true ↔ a = b
  | [], b => by cases b <;> simp [PyVal.beqPairs]
  | (k, v) :: xs, b => by
      cases b with
      | nil => simp [PyVal.beqPairs]
      | cons p ys =>
          obtain ⟨k2, v2⟩ := p
          simp [PyVal.beqPairs, PyVal.beq_iff v v2, PyVal.beqPairs_iff xs ys,
            and_assoc]

end

instance : DecidableEq PyVal := fun a b =>
  decidable_of_iff (PyVal.beq a b = true) (PyVal.beq_iff a b)

instance {ε α : Type} [DecidableEq ε] [DecidableEq α] : DecidableEq (Except ε α) := fun
  | .error e, .error f => decidable_of_iff (e = f) (by simp)
  | .error _, .ok _ => isFalse (by simp)
  | .ok _, .error _ => isFalse (by simp)
  | .ok a, .ok b => decidable_of_iff (a = b) (by simp)

/-- A Python dict with string keys, in insertion order. -/
abbrev Dict := List (Str × PyVal)

/-- d.get(k): the first binding of key k, if any. -/
def getKey {β : Type} : List (Str × β) → Str → Option β
  | [], _ => Option.none
  | (k1, v1) :: rest, k => if k1 = k then some v1 else getKey rest k

/-- k in d. -/
def hasKey {β : Type} : List (Str × β) → Str → Bool
  | [], _ => false
  | (k1, _) :: rest, k => k1 = k || hasKey rest k

/-- d[k] = v: replaces the value of the first binding of the key when one
exists (Python dicts keep the original position), appends the binding
otherwise. -/
def setKey {β : Type} : List (Str × β) → Str → β → List (Str × β)
  | [], k, v => [(k, v)]
  | (k1, v1) :: rest, k, v =>
      if k1 = k then (k, v) :: rest else (k1, v1) :: setKey rest k v

/-- Decimal digits of a natural number. -/
def natStr (n : Nat) : Str := (Nat.repr n).data

/-- Python str() of an int. -/
def intStr (n : Int) : Str :=
  if n < 0 then '-' :: natStr n.natAbs else natStr n.natAbs

/-- Auxiliary search: the least k ≤ fuel such that num * 10^k is divisible by
den, if any.  Used to render rationals with a finite decimal expansion. -/
def decExpSearch (num den : Nat) : Nat → Option Nat
  | 0 => if num % den = 0 then some 0 else Option.none
  | fuel + 1 =>
    match decExpSearch num den fuel with
    | some k => some k
    | Option.none =>
        if num * 10 ^ (fuel + 1) % den = 0 then some (fuel + 1) else Option.none

/-- Digits of n zero-padded on the left to length len. -/
def padZeros (len : Nat) (s : Str) : Str :=
  List.replicate (len - s.length) '0' ++ s

/-- Python repr() of a float, modelled for floats whose value has an exact
decimal expansion of at most 17 fraction digits (every float in the verified
statements does).  Integral floats render as "n.0", other values with their
shortest exact expansion; values without a short exact expansion get a
17-digit truncated rendering (never reached in the statements below). -/
def pyFloatRepr (q : Rat) : Str :=
  let sign : Str := if q < 0 then ['-'] else []
  let n := q.num.natAbs
  let d := q.den
  match decExpSearch n d 17 with
  | some 0 => sign ++ natStr (n / d) ++ ['.', '0']
  | some k =>
      let scaled := n * 10 ^ k / d
      let ip := scaled / 10 ^ k
      let fp := scaled % 10 ^ k
      sign ++ natStr ip ++ '.' :: padZeros k (natStr fp)
  | Option.none =>
      let scaled := n * 10 ^ 17 / d
      sign ++ natStr (scaled / 10 ^ 17) ++ '.' :: padZeros 17 (natStr (scaled % 10 ^ 17))

/-- Concatenates the pieces with the separator between them. -/
def joinSep (sep : Str) : List Str → Str
  | [] => []
  | [x] => x
  | x :: xs => x ++ sep ++ joinSep sep xs

mutual

/-- Python repr() of a value (strings quoted). -/
def pyRepr : PyVal → Str
  | .none => "None".data
  | .str s => '\'' :: s ++ ['\'']
  | .int n => intStr n
  | .float q => pyFloatRepr q
  | .bool b => if b then "True".data else "False".data
  | .list xs => '[' :: joinSep ", ".data (pyReprList xs) ++ [']']
  | .dict d => '\x7b' :: joinSep ", ".data (pyReprPairs d) ++ ['\x7d']

/-- repr of each element of a list. -/
def pyReprList : List PyVal → List Str
  | [] => []
  | x :: xs => pyRepr x :: pyReprList xs

/-- repr of each key-value pair of a dict. -/
def pyReprPairs : List (Str × PyVal) → List Str
  | [] => []
  | (k, v) :: rest =>
      ('\'' :: k ++ '\'' :: ':' :: ' ' :: pyRepr v) :: pyReprPairs rest

end

/-- Python str() of a value: like repr() except that strings are returned
unquoted. -/
def pyStr : PyVal → Str
  | .str s => s
  | v => pyRepr v

mutual

/-- Python truthiness of a value. -/
def pyTruthy : PyVal → Bool
  | .none => false
  | .str s => !s.isEmpty
  | .int n => decide (n ≠ 0)
  | .float q => decide (q ≠ 0)
  | .bool b => b
  | .list xs => !xs.isEmpty
  | .dict d => !d.isEmpty

end

/-- The numeric content of a value for Python ==, where True == 1 and
1 == 1.0. -/
def pyNumVal : PyVal → Option Rat
  | .int n => some (n : Rat)
  | .float q => some q
  | .bool b => some (if b then 1 else 0)
  | _ => Option.none

mutual

/-- Python == on values: numeric types compare by value across int, float
and bool; strings, lists and dicts compare structurally; mixed categories
compare unequal. -/
def pyEq : PyVal → PyVal → Bool
  | .none, .none => true
  | .str a, .str b => a = b
  | .list a, .list b => pyEqList a b
  | .dict a, .dict b => pyEqPairs a b
  | a, b =>
    match pyNumVal a, pyNumVal b with
    | some x, some y => x = y
    | _, _ => false

/-- Elementwise Python == on lists. -/
def pyEqList : List PyVal → List PyVal → Bool
  | [], [] => true
  | x :: xs, y :: ys => pyEq x y && pyEqList xs ys
  | _, _ => false

/-- Python == on dicts, compared as ordered association lists (the documents
handled by the repository never rely on key-order-insensitive equality). -/
def pyEqPairs : List (Str × PyVal) → List (Str × PyVal) → Bool
  | [], [] => true
  | (k, v) :: xs, (k2, v2) :: ys => decide (k = k2) && pyEq v v2 && pyEqPairs xs ys
  | _, _ => false

end

/-- The test `val in (None, "")` as used throughout app_rips_notas2.py. -/
def isNoneOrEmptyStr (v : PyVal) : Bool :=
  pyEq v .none || pyEq v (.str [])

/-- Truncation of a rational toward zero, like Python int(float). -/
def ratTrunc (q : Rat) : Int :=
  (if q.num < 0 then -1 else 1) * ((q.num.natAbs / q.den : Nat) : Int)

/-- Characters Python strips as whitespace at the ends of int()/float()
arguments (the ASCII fragment; the documents never carry exotic spaces in
numeric fields). -/
def isAsciiSpace (c : Char) : Bool :=
  c = ' ' || c = '\t' || c = '\n' || c = '\r' || c = '\x0b' || c = '\x0c'

/-- Python int(str): surrounding whitespace, an optional sign, then at least
one decimal digit and nothing else. -/
def pyIntOfStr (s : Str) : Option Int :=
  let t := (s.dropWhile isAsciiSpace).reverse.dropWhile isAsciiSpace |>.reverse
  let (neg, digits) :=
    match t with
    | '-' :: rest => (true, rest)
    | '+' :: rest => (false, rest)
    | rest => (false, rest)
  if digits.isEmpty || !digits.all Char.isDigit then Option.none
  else
    let n := digits.foldl (fun acc c => acc * 10 + (c.toNat - '0'.toNat)) 0
    some (if neg then -(n : Int) else (n : Int))

/-- Python int(value): ints unchanged, bools as 0/1, floats truncated toward
zero, strings parsed as decimal integers; anything else raises. -/
def pyToInt : PyVal → Option Int
  | .int n => some n
  | .bool b => some (if b then 1 else 0)
  | .float q => some (ratTrunc q)
  | .str s => pyIntOfStr s
  | _ => Option.none

/-- Exact rational addition, computed on the raw fractions.  (The library's
Rat.add is marked irreducible, which blocks kernel evaluation; Rat.divInt
normalizes and evaluates, and ratAdd_eq_add below identifies the two.) -/
def ratAdd (a b : Rat) : Rat :=
  Rat.divInt (a.num * b.den + b.num * a.den) (a.den * b.den)

/-- q - n for an integer n, computed on the raw fraction. -/
def ratSubInt (q : Rat) (n : Int) : Rat :=
  Rat.divInt (q.num - n * q.den) q.den

/-- q + 1/2, computed on the raw fraction. -/
def ratAddHalf (q : Rat) : Rat :=
  Rat.divInt (2 * q.num + q.den) (2 * q.den)

/-- -q, computed on the raw fraction. -/
def ratNeg (q : Rat) : Rat :=
  Rat.divInt (-q.num) q.den

/-- q * n for an integer n, computed on the raw fraction. -/
def ratMulInt (q : Rat) (n : Int) : Rat :=
  Rat.divInt (q.num * n) q.den

/-- Parses the decimal-literal fragment accepted by both Python float(str)
and Decimal(str): optional surrounding whitespace, an optional sign, a
mantissa with at least one digit and at most one point, and an optional
decimal exponent.  (inf/nan and underscore separators are not used by the
documents and are rejected here.) -/
def parseDecimal (s : Str) : Option Rat :=
  let t := (s.dropWhile isAsciiSpace).reverse.dropWhile isAsciiSpace |>.reverse
  let (neg, t) :=
    match t with
    | '-' :: rest => (true, rest)
    | '+' :: rest => (false, rest)
    | rest => (false, rest)
  let ipart := t.takeWhile Char.isDigit
  let t := t.dropWhile Char.isDigit
  let (fpart, t) :=
    match t with
    | '.' :: rest => (rest.takeWhile Char.isDigit, rest.dropWhile Char.isDigit)
    | rest => (([] : Str), rest)
  if ipart.isEmpty && fpart.isEmpty then Option.none
  else
    let mant : Int :=
      (ipart ++ fpart).foldl (fun acc c => acc * 10 + (c.toNat - '0'.toNat)) 0
    let mant : Int := if neg then -mant else mant
    match t with
    | [] => some (Rat.divInt mant ((10 ^ fpart.length : Nat) : Int))
    | e :: rest =>
        if e = 'e' || e = 'E' then
          let (eneg, ds) :=
            match rest with
            | '-' :: r2 => (true, r2)
            | '+' :: r2 => (false, r2)
            | r2 => (false, r2)
          if ds.isEmpty || !ds.all Char.isDigit then Option.none
          else
            let ex := ds.foldl (fun acc c => acc * 10 + (c.toNat - '0'.toNat)) 0
            some (if eneg then Rat.divInt mant ((10 ^ (fpart.length + ex) : Nat) : Int)
                  else Rat.divInt (mant * ((10 ^ ex : Nat) : Int)) ((10 ^ fpart.length : Nat) : Int))
        else Option.none

/-- Python float(value): ints and bools converted exactly, floats unchanged,
strings parsed as decimal literals; None and collections raise. -/
def pyToFloat : PyVal → Option Rat
  | .int n => some (n : Rat)
  | .bool b => some (if b then 1 else 0)
  | .float q => some q
  | .str s => parseDecimal s
  | _ => Option.none

/-! ### afacturar_nota_credito.py: formatting and validation helpers -/

/-- The characters matched by the regex class [\r\n\t]. -/
def isCrlfTab (c : Char) : Bool := c = '\r' || c = '\n' || c = '\t'

/-- The characters Python's regex \s matches over str: the six ASCII
whitespace characters plus the Unicode whitespace code points. -/
def isPyWs (c : Char) : Bool :=
  c = ' ' || c = '\t' || c = '\n' || c = '\r' || c = '\x0b' || c = '\x0c' ||
  c = '\x1c' || c = '\x1d' || c = '\x1e' || c = '\x1f' || c = '\x85' ||
  c = '\xa0' || c = '\u1680' || ('\u2000' ≤ c && c ≤ '\u200a') ||
  c = '\u2028' || c = '\u2029' || c = '\u202f' || c = '\u205f' || c = '\u3000'

/-- One maximal run, already collected: replaced by a single space once its
length reaches minRun, kept verbatim otherwise. -/
def emitRun (minRun : Nat) (run : Str) : Str :=
  if minRun ≤ run.length ∧ run.length ≠ 0 then [' '] else run

/-- Worker for replaceRuns: pending is the maximal run of matching
characters read so far. -/
def replaceRunsAux (p : Char → Bool) (minRun : Nat) (pending : Str) : Str → Str
  | [] => emitRun minRun pending
  | c :: rest =>
      if p c then replaceRunsAux p minRun (pending ++ [c]) rest
      else emitRun minRun pending ++ c :: replaceRunsAux p minRun [] rest

/-- re.sub over maximal runs: every maximal run of characters matching p
whose length is at least minRun is replaced by a single space.  minRun 1
models re.sub of [\r\n\t]+ with a space, minRun 2 models re.sub of \s
repeated at least twice with a space. -/
def replaceRuns (p : Char → Bool) (minRun : Nat) (s : Str) : Str :=
  replaceRunsAux p minRun [] s

/-- str.strip(): removes leading and trailing whitespace. -/
def stripWs (s : Str) : Str :=
  ((s.dropWhile isPyWs).reverse.dropWhile isPyWs).reverse

/-- _sanitize_text on an already-stringified value: collapse runs of
carriage returns, newlines and tabs to one space, collapse whitespace runs
of two or more to one space, strip the ends, and right-pad with spaces to
min_len when a nonzero min_len asks for more. -/
def sanitize_text_chars (s : Str) (min_len : Nat) : Str :=
  let s := replaceRuns isCrlfTab 1 s
  let s := replaceRuns isPyWs 2 s
  let s := stripWs s
  if min_len ≠ 0 ∧ s.length < min_len then
    s ++ List.replicate (min_len - s.length) ' '
  else s

/-- _sanitize_text on an arbitrary value: None becomes the empty string,
anything else goes through str() first. -/
def sanitize_text_val (v : PyVal) (min_len : Nat) : Str :=
  sanitize_text_chars (if v = .none then [] else pyStr v) min_len

/-- Round half to even at integer precision. -/
def roundHalfEven (q : Rat) : Int :=
  let f := ⌊q⌋
  let r := ratSubInt q f
  if r < mkRat 1 2 then f
  else if mkRat 1 2 < r then f + 1
  else if f % 2 = 0 then f else f + 1

/-- Fixed-point rendering with dec fraction digits, rounding half to even as
Python string formatting with a fixed precision does on an
exactly-representable float value. -/
def formatFixed (dec : Nat) (q : Rat) : Str :=
  let sign : Str := if q < 0 then ['-'] else []
  let n := (roundHalfEven (Rat.divInt ((q.num.natAbs * 10 ^ dec : Nat) : Int) (q.den : Int))).toNat
  if dec = 0 then sign ++ natStr n
  else sign ++ natStr (n / 10 ^ dec) ++ '.' :: padZeros dec (natStr (n % 10 ^ dec))

/-- _fmt_dec: a string is stripped, has its commas turned into points and is
parsed as a float; a number is converted with float(); the result is
rendered with dec fraction digits.  An unparseable string raises the
ValueError shown; None and collections raise a TypeError inside float(). -/
def fmt_dec (val : PyVal) (dec : Nat := 2) : Except Str Str :=
  match val with
  | .str s =>
      let s2 := (stripWs s).map (fun c => if c = ',' then '.' else c)
      match parseDecimal s2 with
      | some q => .ok (formatFixed dec q)
      | Option.none => .error ("Valor numérico inválido: ".data ++ s)
  | v =>
      match pyToFloat v with
      | some q => .ok (formatFixed dec q)
      | Option.none => .error "TypeError: float() argument".data

/-- str.replace for a nonempty pattern, scanning left to right without
overlap.  (The repository never calls replace with an empty pattern; the
model returns the string unchanged there.) -/
def replaceSub (pat rep : Str) (s : Str) : Str :=
  match s with
  | [] => []
  | c :: rest =>
    if pat ≠ [] ∧ pat.isPrefixOf (c :: rest) then
      rep ++ replaceSub pat rep (rest.drop (pat.length - 1))
    else c :: replaceSub pat rep rest
termination_by s.length
decreasing_by
  · simp only [List.length_drop, List.length_cons]; omega
  · simp only [List.length_cons]; omega

/-- Lowercase hexadecimal digit. -/
def hexDigit (n : Nat) : Char :=
  if n < 10 then Char.ofNat ('0'.toNat + n) else Char.ofNat ('a'.toNat + (n - 10))

/-- JSON escaping of one character (ensure_ascii=False). -/
def jsonEscapeChar (c : Char) : Str :=
  if c = '"' then ['\\', '"']
  else if c = '\\' then ['\\', '\\']
  else if c = '\n' then ['\\', 'n']
  else if c = '\r' then ['\\', 'r']
  else if c = '\t' then ['\\', 't']
  else if c.toNat < 32 then
    '\\' :: 'u' :: '0' :: '0' :: hexDigit (c.toNat / 16) :: [hexDigit (c.toNat % 16)]
  else [c]

mutual

/-- json.dumps with ensure_ascii=False and compact separators, as used for
container values embedded in a note map. -/
def jsonDumps : PyVal → Str
  | .none => "null".data
  | .bool b => if b then "true".data else "false".data
  | .int n => intStr n
  | .float q => pyFloatRepr q
  | .str s => '"' :: s.flatMap jsonEscapeChar ++ ['"']
  | .list xs => '[' :: joinSep [','] (jsonDumpsList xs) ++ [']']
  | .dict d => '\x7b' :: joinSep [','] (jsonDumpsPairs d) ++ ['\x7d']

/-- dumps of each element of a list. -/
def jsonDumpsList : List PyVal → List Str
  | [] => []
  | x :: xs => jsonDumps x :: jsonDumpsList xs

/-- dumps of each key-value pair of an object. -/
def jsonDumpsPairs : List (Str × PyVal) → List Str
  | [] => []
  | (k, v) :: rest =>
      ('"' :: k.flatMap jsonEscapeChar ++ '"' :: ':' :: jsonDumps v) :: jsonDumpsPairs rest

end

/-- _nota_to_single_quote_string: renders a mapping with single quotes as
the Afacturar endpoint expects.  Keys lose their single quotes; dict and
list values go through compact json.dumps, other values through str();
every value then has escaped single quotes, backslashes and single quotes
replaced by spaces and is sanitized. -/
def nota_to_single_quote_string (nota_dict : Dict) : Str :=
  let parts := nota_dict.map (fun kv =>
    let key := replaceSub ['\''] [' '] kv.1
    let v_str :=
      match kv.2 with
      | .dict d => jsonDumps (.dict d)
      | .list xs => jsonDumps (.list xs)
      | v => pyStr v
    let v_str := replaceSub ['\\', '\''] [' '] v_str
    let v_str := replaceSub ['\\'] [' '] v_str
    let v_str := replaceSub ['\''] [' '] v_str
    let v_str := sanitize_text_chars v_str 0
    '\'' :: key ++ '\'' :: ':' :: '\'' :: v_str ++ ['\''])
  '\x7b' :: joinSep [','] parts ++ ['\x7d']

/-- The slices s[i:i+maxLen] for i in range(0, len(s), maxLen).  The model
requires maxLen ≥ 1 and returns no slices otherwise (range() with step 0
raises in Python). -/
def chunksOfFuel (maxLen : Nat) : Nat → Str → List Str
  | 0, _ => []
  | fuel + 1, s =>
    if s.isEmpty then [] else
    if maxLen = 0 then [] else
    s.take maxLen :: chunksOfFuel maxLen fuel (s.drop maxLen)

def chunksOf (maxLen : Nat) (s : Str) : List Str :=
  chunksOfFuel maxLen s.length s

/-- chunks[-2] += chunks[-1]; chunks.pop(). -/
def mergeLastTwo : List Str → List Str
  | [] => []
  | [a] => [a]
  | [a, b] => [a ++ b]
  | a :: b :: c :: rest => a :: mergeLastTwo (b :: c :: rest)

/-- The tail of _split_nota_string: merge a short last piece into its
predecessor, then pad a lone short piece to min_piece. -/
def postprocessChunks (min_piece : Nat) (chunks0 : List Str) : List Str :=
  let chunks :=
    if (chunks0.getLastD []).length < min_piece ∧ 1 < chunks0.length then
      mergeLastTwo chunks0
    else chunks0
  if chunks.length = 1 ∧ (chunks.headD []).length < min_piece then
    [chunks.headD [] ++ List.replicate (min_piece - (chunks.headD []).length) ' ']
  else chunks

/-- _split_nota_string: sanitize, substitute the default observation when
empty, slice into max_len pieces, merge a short last piece into its
predecessor, and pad a single short piece to min_piece. -/
def split_nota_string (nota_str : Str) (max_len : Nat := 1000) (min_piece : Nat := 15) :
    List Str :=
  let s := sanitize_text_chars nota_str 0
  let s := if s.isEmpty then "\x7b'OBS':'Sin observación'\x7d".data else s
  let chunks := chunksOf max_len s
  let chunks := if chunks.isEmpty then [s] else chunks
  postprocessChunks min_piece chunks

/-- The pattern of _DATE_RE: exactly four digits, a dash, two digits, a
dash, two digits. -/
def matchesDate (s : Str) : Bool :=
  match s with
  | [a, b, c, d, '-', e, f, '-', g, h] =>
      a.isDigit && b.isDigit && c.isDigit && d.isDigit &&
      e.isDigit && f.isDigit && g.isDigit && h.isDigit
  | _ => false

/-- The pattern of _TIME_RE: HH:MM:SS. -/
def matchesTimeHms (s : Str) : Bool :=
  match s with
  | [a, b, ':', c, d, ':', e, f] =>
      a.isDigit && b.isDigit && c.isDigit && d.isDigit && e.isDigit && f.isDigit
  | _ => false

/-- The pattern of _TIME_HM_RE: HH:MM. -/
def matchesTimeHm (s : Str) : Bool :=
  match s with
  | [a, b, ':', c, d] => a.isDigit && b.isDigit && c.isDigit && d.isDigit
  | _ => false

/-- The pattern of _DEC_RE: digits, optionally a point and one or two more
digits. -/
def matchesDecimal2 (s : Str) : Bool :=
  let ip := s.takeWhile Char.isDigit
  let rest := s.drop ip.length
  !ip.isEmpty &&
    (rest.isEmpty ||
      (match rest with
       | '.' :: fs => !fs.isEmpty && decide (fs.length ≤ 2) && fs.all Char.isDigit
       | _ => false))

/-- Evaluates `v or ""` and insists on a string, as the regex-based
assertion helpers do: a falsy value is replaced by the empty string, a
truthy non-string raises inside re.match. -/
def strOrEmpty (v : PyVal) : Option Str :=
  if !pyTruthy v then some []
  else match v with
       | .str s => some s
       | _ => Option.none

/-- _assert_date. -/
def assert_date (d : PyVal) (field : Str) : Except Str Unit :=
  match strOrEmpty d with
  | some s =>
      if matchesDate s then .ok () else .error (field ++ " debe ser AAAA-MM-DD".data)
  | Option.none => .error "TypeError: expected string or bytes-like object".data

/-- _assert_time_hms. -/
def assert_time_hms (t : PyVal) (field : Str) : Except Str Unit :=
  match strOrEmpty t with
  | some s =>
      if matchesTimeHms s then .ok () else .error (field ++ " debe ser HH:MM:SS".data)
  | Option.none => .error "TypeError: expected string or bytes-like object".data

/-- _assert_time_hm. -/
def assert_time_hm (t : PyVal) (field : Str) : Except Str Unit :=
  match strOrEmpty t with
  | some s =>
      if matchesTimeHm s then .ok () else .error (field ++ " debe ser HH:MM".data)
  | Option.none => .error "TypeError: expected string or bytes-like object".data

/-- _assert_enum: str(val) must be one of the allowed strings. -/
def assert_enum (val : PyVal) (field : Str) (allowed : List Str) : Except Str Unit :=
  if allowed.contains (pyStr val) then .ok ()
  else .error (field ++ " inválido. Permitidos: ".data ++ pyRepr (.list (allowed.map .str)))

/-- _assert_decimal_string. -/
def assert_decimal_string (s : PyVal) (field : Str) : Except Str Unit :=
  match strOrEmpty s with
  | some t =>
      if matchesDecimal2 t then .ok ()
      else .error (field ++ " debe ser número con punto y hasta 2 decimales (p.ej. 1234.56)".data)
  | Option.none => .error "TypeError: expected string or bytes-like object".data

/-- The six required header fields, in the order the source checks them. -/
def REQ_ENCABEZADO : List Str :=
  ["id_nota_credito".data, "fecha".data, "hora".data, "moneda".data,
   "tipo_operacion".data, "tipo_nota_credito".data]

/-- A required header field is offending when it is absent or blank after
sanitization. -/
def encabezadoFaltante (encabezado : Dict) (k : Str) : Bool :=
  !hasKey encabezado k ||
    decide (sanitize_text_val ((getKey encabezado k).getD .none) 0 = [])

/-- The header requirement loop: stops at the first offending field. -/
def checkReqEncabezado (encabezado : Dict) : List Str → Except Str Unit
  | [] => .ok ()
  | k :: rest =>
      if encabezadoFaltante encabezado k then
        .error ("encabezado.".data ++ k ++ " es requerido".data)
      else checkReqEncabezado encabezado rest

/-- The default note map serialized with single quotes, used when the
header carries no usable free-text note. -/
def defaultNota (encabezado : Dict) : Str :=
  nota_to_single_quote_string
    [("MOTIVO".data, .str "Nota crédito parcial por ajuste de precio".data),
     ("SOPORTE".data, .str "Glosa parcial sobre servicios".data),
     ("OBS".data,
      .str ("NC ".data ++ pyStr ((getKey encabezado "id_nota_credito".data).getD (.str []))))]

/-- The note text: a truthy header note is joined (if a list) or
stringified, then sanitized; otherwise the default note map is used. -/
def notaStrOf (encabezado : Dict) : Str :=
  match getKey encabezado "nota".data with
  | some v =>
      if pyTruthy v then
        match v with
        | .list xs => sanitize_text_chars ((xs.map pyStr).flatten) 0
        | v2 => sanitize_text_chars (pyStr v2) 0
      else defaultNota encabezado
  | Option.none => defaultNota encabezado

/-- Reformats the value under k with _fmt_dec when the key is present. -/
def setFmtKey (k : Str) (it : Dict) : Except Str Dict :=
  match getKey it k with
  | some v => do
      let s ← fmt_dec v 2
      pure (setKey it k (.str s))
  | Option.none => pure it

/-- The per-line normalization of the three known monetary fields. -/
def normalizar_item_detalle (it : Dict) : Except Str Dict := do
  let it ← setFmtKey "valor_unitario".data it
  let it ← setFmtKey "valor_total_detalle".data it
  setFmtKey "valor_total_detalle_con_cargo_descuento".data it

/-- Normalization of every line item, in order. -/
def normalizar_detalle : List Dict → Except Str (List Dict)
  | [] => pure []
  | it :: rest => do
      let it2 ← normalizar_item_detalle it
      let rest2 ← normalizar_detalle rest
      pure (it2 :: rest2)

/-- The fourteen monetary keys reformatted inside the totals blocks. -/
def TOTALES_KEYS : List Str :=
  ["valor_base".data, "valor_base_calculo_impuestos".data, "valor_base_mas_impuestos".data,
   "valor_anticipo".data, "valor_descuento_total".data, "valor_total_recargos".data,
   "valor_total_impuesto_1".data, "valor_total_impuesto_2".data,
   "valor_total_impuesto_3".data, "valor_total_impuesto_4".data,
   "valor_total_reteiva".data, "valor_total_retefuente".data, "valor_total_reteica".data,
   "total_nota_credito".data, "valor_total_a_pagar".data]

/-- _norm_totales: every listed key present with a value other than None or
the empty string is reformatted to a 2-decimal string. -/
def norm_totales (d : Dict) : List Str → Except Str Dict
  | [] => pure d
  | k :: rest =>
      match getKey d k with
      | some v =>
          if !isNoneOrEmptyStr v then do
            let s ← fmt_dec v 2
            norm_totales (setKey d k (.str s)) rest
          else norm_totales d rest
      | Option.none => norm_totales d rest

/-- The sanitized header section of the assembled payload. -/
structure EncabezadoNC where
  id_nota_credito : Str
  fecha : Str
  hora : Str
  nota : List Str
  moneda : Str
  tipo_operacion : Str
  tipo_nota_credito : Str
  numero_orden : Str
  prefijo : Str
deriving DecidableEq

/-- The sanitized referenced-document section of the assembled payload. -/
structure InfoDocNC where
  id_documento : Str
  codigo_unico_documento : Str
  fecha : Str
  hora : Str
  codigo_tipo_documento : Str
deriving DecidableEq

/-- One credit-note body as assembled by construir_payload_nota_credito. -/
structure DataNC where
  encabezado : EncabezadoNC
  servicio : Dict
  informacion_documento : InfoDocNC
  detalle_factura : List Dict
  impuestos : List Dict
  descuentos : List Dict
  valor_nota_credito : Dict
  formas_de_pago : Option (List Dict)
  cambio_de_moneda : Option Dict
  retenciones : Option (List Dict)
  recargos : Option (List Dict)
  cambio_de_moneda_totales : Option Dict
  entrega_de_bienes : Option Dict
  informacion_adquiriente : Option Dict
deriving DecidableEq

/-- The full payload returned by construir_payload_nota_credito. -/
structure PayloadNC where
  documento_obligado : Str
  nota_credito : List DataNC
  generalidades : Dict
deriving DecidableEq

/-- construir_payload_nota_credito of afacturar_nota_credito.py, with each
ValueError modelled as an Except error carrying the message.  Sections are
dicts of PyVal; the list-typed parameters carry their isinstance checks in
their Lean types. -/
def construir_payload_nota_credito
    (documento_obligado : PyVal)
    (encabezado servicio informacion_documento : Dict)
    (detalle_factura impuestos descuentos : List Dict)
    (valor_nota_credito generalidades : Dict)
    (formas_de_pago : Option (List Dict) := Option.none)
    (cambio_de_moneda : Option Dict := Option.none)
    (retenciones : Option (List Dict) := Option.none)
    (recargos : Option (List Dict) := Option.none)
    (cambio_de_moneda_totales : Option Dict := Option.none)
    (entrega_de_bienes : Option Dict := Option.none)
    (informacion_adquiriente : Option Dict := Option.none) :
    Except Str PayloadNC := do
  -- -------- Encabezado requerido --------
  checkReqEncabezado encabezado REQ_ENCABEZADO
  assert_date ((getKey encabezado "fecha".data).getD .none) "encabezado.fecha".data
  assert_time_hms ((getKey encabezado "hora".data).getD .none) "encabezado.hora".data
  assert_enum ((getKey encabezado "tipo_operacion".data).getD .none)
    "encabezado.tipo_operacion".data ["35".data]
  assert_enum ((getKey encabezado "tipo_nota_credito".data).getD .none)
    "encabezado.tipo_nota_credito".data
    ["1".data, "2".data, "3".data, "4".data, "5".data]
  let nota_partes := split_nota_string (notaStrOf encabezado) 1000 15
  -- -------- Servicio mínimo requerido --------
  if !hasKey servicio "modo_transporte".data || !hasKey servicio "lugar_origen".data ||
      !hasKey servicio "lugar_destino".data || !hasKey servicio "hora_salida".data ||
      !hasKey servicio "datos_vehiculo".data then
    throw "servicio requiere modo_transporte, lugar_origen, lugar_destino, hora_salida y datos_vehiculo".data
  assert_enum ((getKey servicio "modo_transporte".data).getD .none)
    "servicio.modo_transporte".data ["TERRESTRE".data]
  assert_time_hm ((getKey servicio "hora_salida".data).getD .none) "servicio.hora_salida".data
  let dv := (getKey servicio "datos_vehiculo".data).getD (.dict [])
  match dv with
  | .dict dvd => do
      if !hasKey dvd "codigo".data || !hasKey dvd "placa".data || !hasKey dvd "tipo".data then
        throw "servicio.datos_vehiculo requiere codigo, placa y tipo".data
      assert_enum ((getKey dvd "tipo".data).getD .none) "servicio.datos_vehiculo.tipo".data
        ["AUTOBUS".data, "MICROBUS".data, "BUS".data]
  | _ => throw "TypeError: argument of type is not iterable".data
  -- -------- Documento afectado --------
  if !hasKey informacion_documento "id_documento".data then
    throw "informacion_documento.id_documento es requerido".data
  if !hasKey informacion_documento "fecha".data then
    throw "informacion_documento.fecha es requerido".data
  if !hasKey informacion_documento "hora".data then
    throw "informacion_documento.hora es requerido".data
  assert_date ((getKey informacion_documento "fecha".data).getD .none)
    "informacion_documento.fecha".data
  assert_time_hms ((getKey informacion_documento "hora".data).getD .none)
    "informacion_documento.hora".data
  let cude := (getKey informacion_documento "codigo_unico_documento".data).getD
    ((getKey informacion_documento "codigo_unico_factura".data).getD (.str []))
  if (sanitize_text_val cude 0).isEmpty then
    throw "informacion_documento requiere codigo_unico_documento (CUDE)".data
  -- -------- Detalle (al menos 1 línea) --------
  if detalle_factura.isEmpty then
    throw "detalle_factura debe contener al menos una línea".data
  let detalle ← normalizar_detalle detalle_factura
  -- -------- Impuestos / Descuentos --------
  if impuestos.isEmpty then throw "impuestos requiere al menos 1 ítem".data
  if descuentos.isEmpty then throw "descuentos requiere al menos 1 ítem".data
  -- -------- Totales (obligatorios) --------
  let vnc ← norm_totales valor_nota_credito TOTALES_KEYS
  assert_decimal_string ((getKey vnc "total_nota_credito".data).getD (.str []))
    "valor_nota_credito.total_nota_credito".data
  assert_decimal_string ((getKey vnc "valor_total_a_pagar".data).getD (.str []))
    "valor_nota_credito.valor_total_a_pagar".data
  let cmt ← match cambio_de_moneda_totales with
    | some d =>
        if d.isEmpty then pure (Option.none : Option Dict)
        else do
          let d2 ← norm_totales d TOTALES_KEYS
          pure (some d2)
    | Option.none => pure Option.none
  -- -------- Generalidades --------
  if !hasKey generalidades "tipo_ambiente_dian".data || !hasKey generalidades "version".data ||
      !hasKey generalidades "identificador_transmision".data ||
      !hasKey generalidades "rg_tipo".data then
    throw "generalidades requiere tipo_ambiente_dian, version, identificador_transmision y rg_tipo".data
  assert_enum ((getKey generalidades "tipo_ambiente_dian".data).getD .none)
    "generalidades.tipo_ambiente_dian".data ["1".data, "2".data]
  assert_enum ((getKey generalidades "rg_tipo".data).getD .none)
    "generalidades.rg_tipo".data ["HTML".data, "PDF".data, "PDF_PROPIO".data]
  -- -------- Cambio de moneda: validación opcional --------
  let cdm ← match cambio_de_moneda with
    | some d =>
        if d.isEmpty then pure (Option.none : Option Dict)
        else do
          if hasKey d "fecha_cambio".data then
            assert_date ((getKey d "fecha_cambio".data).getD .none)
              "cambio_de_moneda.fecha_cambio".data
          pure (some d)
    | Option.none => pure Option.none
  -- -------- Armar objeto principal --------
  let data_nc : DataNC :=
    { encabezado :=
        { id_nota_credito := sanitize_text_val ((getKey encabezado "id_nota_credito".data).getD .none) 0
          fecha := sanitize_text_val ((getKey encabezado "fecha".data).getD .none) 0
          hora := sanitize_text_val ((getKey encabezado "hora".data).getD .none) 0
          nota := nota_partes
          moneda := sanitize_text_val ((getKey encabezado "moneda".data).getD .none) 0
          tipo_operacion := sanitize_text_val ((getKey encabezado "tipo_operacion".data).getD .none) 0
          tipo_nota_credito := sanitize_text_val ((getKey encabezado "tipo_nota_credito".data).getD .none) 0
          numero_orden := sanitize_text_val ((getKey encabezado "numero_orden".data).getD (.str [])) 0
          prefijo := sanitize_text_val ((getKey encabezado "prefijo".data).getD (.str [])) 0 }
      servicio := servicio
      informacion_documento :=
        { id_documento := sanitize_text_val ((getKey informacion_documento "id_documento".data).getD (.str [])) 0
          codigo_unico_documento := sanitize_text_val cude 0
          fecha := sanitize_text_val ((getKey informacion_documento "fecha".data).getD (.str [])) 0
          hora := sanitize_text_val ((getKey informacion_documento "hora".data).getD (.str [])) 0
          codigo_tipo_documento := sanitize_text_val ((getKey informacion_documento "codigo_tipo_documento".data).getD (.str [])) 0 }
      detalle_factura := detalle
      impuestos := impuestos
      descuentos := descuentos
      valor_nota_credito := vnc
      formas_de_pago := formas_de_pago.bind (fun l => if l.isEmpty then Option.none else some l)
      cambio_de_moneda := cdm
      retenciones := retenciones.bind (fun l => if l.isEmpty then Option.none else some l)
      recargos := recargos.bind (fun l => if l.isEmpty then Option.none else some l)
      cambio_de_moneda_totales := cmt
      entrega_de_bienes := entrega_de_bienes.bind (fun d => if d.isEmpty then Option.none else some d)
      informacion_adquiriente := informacion_adquiriente.bind (fun d => if d.isEmpty then Option.none else some d) }
  pure
    { documento_obligado := sanitize_text_val documento_obligado 0
      nota_credito := [data_nc]
      generalidades := generalidades }

/-! ### app_nc_dian.py: decimal helpers and the Afacturar/TTP payload -/

/-- _dec: None and the empty string become 0.00, anything else goes through
Decimal(str(v)); an unparseable rendering raises InvalidOperation (modelled
as no value). -/
def decOfVal (v : PyVal) : Option Rat :=
  if v = .none || v = .str [] then some 0
  else parseDecimal (pyStr v)

/-- Round half away from zero at integer precision (decimal ROUND_HALF_UP). -/
def roundHalfUp (q : Rat) : Int :=
  if 0 ≤ q then ⌊ratAddHalf q⌋ else -⌊ratAddHalf (ratNeg q)⌋

/-- _fmt2 on an already-converted Decimal value: quantize to 0.01 with
ROUND_HALF_UP and render with the period separator and two fraction
digits. -/
def fmt2 (q : Rat) : Str :=
  let n := (roundHalfUp (ratMulInt q 100)).natAbs
  let sign : Str := if q < 0 then ['-'] else []
  sign ++ natStr (n / 100) ++ '.' :: padZeros 2 (natStr (n % 100))

/-- One row of the editable services table consumed by
construir_payload_afacturar_ttp.  The source rows also carry tabla, u_idx,
s_idx and the service codes, none of which the payload builder reads; the
model keeps the three columns it does read. -/
structure FilaNC where
  incluir : Bool
  paciente : PyVal
  valor_nc : PyVal
deriving DecidableEq

/-- One detail line of the TTP payload (numero_linea i, both totals equal to
the formatted value, the patient id in nota_detalle and the additional
information block). -/
def detalleLineaTTP (i : Nat) (valor : Str) (paciente : Str) : PyVal :=
  .dict
    [("numero_linea".data, .int i),
     ("cantidad".data, .int 1),
     ("unidad_de_cantidad".data, .str "94".data),
     ("valor_unitario".data, .str valor),
     ("descripcion".data, .str "Servicio sector salud".data),
     ("nota_detalle".data, .str ("Ajuste parcial - Paciente ".data ++ paciente)),
     ("marca".data, .str "N/A".data),
     ("modelo".data, .str "N/A".data),
     ("codificacion_estandar".data, .dict
       [("cod_grupo_bien_servicio".data, .str "1".data),
        ("nombre_grupo_bien_servicio".data, .str "UNSPSC".data),
        ("cod_segmento_bien_servicio".data, .str "7811".data),
        ("cod_bien_servicio".data, .str "78111000".data)]),
     ("regalo".data, .dict
       [("es_regalo".data, .bool false),
        ("cod_precio_referencia".data, .str "0".data),
        ("precio_referencia".data, .str "0.00".data)]),
     ("cargo_descuento".data, .dict
       [("es_descuento".data, .bool true),
        ("porcentaje_cargo_descuento".data, .str "0.00".data),
        ("valor_base_cargo_descuento".data, .str "0.00".data),
        ("valor_cargo_descuento".data, .str "0.00".data)]),
     ("impuestos_detalle".data, .dict
       [("codigo_impuesto".data, .str "0".data),
        ("porcentaje_impuesto".data, .str "0.00".data),
        ("valor_base_impuesto".data, .str "0.00".data),
        ("valor_impuesto".data, .str "0.00".data)]),
     ("retenciones_detalle".data, .list
       [.dict [("codigo".data, .str "0".data), ("porcentaje".data, .str "0.00".data),
               ("valor_base".data, .str "0.00".data), ("valor_retenido".data, .str "0.00".data)]]),
     ("valores_unitarios".data, .dict
       [("valor_impuesto_1".data, .str "0.00".data),
        ("valor_impuesto_2".data, .str "0.00".data),
        ("valor_impuesto_3".data, .str "0.00".data),
        ("valor_impuesto_4".data, .str "0.00".data),
        ("valor_a_pagar".data, .str valor)]),
     ("valor_total_detalle_con_cargo_descuento".data, .str valor),
     ("valor_total_detalle".data, .str valor),
     ("informacion_adicional".data, .list
       [.dict [("variable".data, .str "IDENTIFICACION_USUARIO".data),
               ("valor".data, .str paciente)]])]

/-- The totals block of the TTP payload: base and payable totals all equal
the formatted sum, taxes and withholdings zero. -/
def totalesTTP (total : Rat) : Dict :=
  [("valor_base".data, .str (fmt2 total)),
   ("valor_base_calculo_impuestos".data, .str "0.00".data),
   ("valor_base_mas_impuestos".data, .str (fmt2 total)),
   ("valor_anticipo".data, .str "0.00".data),
   ("valor_descuento_total".data, .str "0.00".data),
   ("valor_total_recargos".data, .str "0.00".data),
   ("valor_total_impuesto_1".data, .str "0.00".data),
   ("valor_total_impuesto_2".data, .str "0.00".data),
   ("valor_total_impuesto_3".data, .str "0.00".data),
   ("valor_total_impuesto_4".data, .str "0.00".data),
   ("valor_total_reteiva".data, .str "0.00".data),
   ("valor_total_retefuente".data, .str "0.00".data),
   ("valor_total_reteica".data, .str "0.00".data),
   ("total_nota_credito".data, .str (fmt2 total)),
   ("valor_total_a_pagar".data, .str (fmt2 total))]

/-- The detail loop of construir_payload_afacturar_ttp: the accumulated
Decimal total and one detail line per selected row, numbered from i. -/
def buildDetalleTTP : List FilaNC → Nat → Rat → Except Str (List PyVal × Rat)
  | [], _, total => pure ([], total)
  | r :: rest, i, total =>
      match decOfVal r.valor_nc with
      | some d => do
          let valor := fmt2 d
          let (lines, tot) ← buildDetalleTTP rest (i + 1) (ratAdd total d)
          pure (detalleLineaTTP i valor (pyStr r.paciente) :: lines, tot)
      | Option.none => throw "decimal.InvalidOperation".data

/-- construir_payload_afacturar_ttp of app_nc_dian.py.  The rips argument is
not read by the source either; datetime.now() is passed in as the fecha and
hora strings. -/
def construir_payload_afacturar_ttp
    (filas_df : List FilaNC)
    (id_nc ref_doc cude_ref doc_obligado fecha hora : Str)
    (moneda : Str := "COP".data)
    (tipo_operacion : Str := "35".data)
    (tipo_nc : Str := "4".data)
    (prefijo : Str := "NC".data) : Except Str PyVal := do
  let sel := filas_df.filter (fun r => r.incluir)
  if sel.isEmpty then throw "No hay ítems seleccionados para la nota crédito.".data
  let (detalle, total) ← buildDetalleTTP sel 1 0
  pure (.dict
    [("documento_obligado".data, .str doc_obligado),
     ("data".data, .dict
       [("nota_credito".data, .list
         [.dict
           [("encabezado".data, .dict
             [("id_nota_credito".data, .str id_nc),
              ("fecha".data, .str fecha),
              ("hora".data, .str hora),
              ("nota".data, .list
                [.str ("\x7b'MOTIVO':'Nota crédito parcial','SOPORTE':'Ajuste/Glosa','OBS':'Ref ".data
                        ++ ref_doc ++ "'\x7d".data)]),
              ("moneda".data, .str moneda),
              ("tipo_operacion".data, .str tipo_operacion),
              ("tipo_nota_credito".data, .str tipo_nc),
              ("numero_orden".data, .str []),
              ("prefijo".data, .str prefijo)]),
            ("servicio".data, .dict
              [("modo_transporte".data, .str "TERRESTRE".data),
               ("lugar_origen".data, .str "Bogotá".data),
               ("lugar_destino".data, .str "Bogotá".data),
               ("hora_salida".data, .str "08:30".data),
               ("datos_vehiculo".data, .dict
                 [("codigo".data, .str "BUS-01".data),
                  ("placa".data, .str "ABC123".data),
                  ("tipo".data, .str "AUTOBUS".data)])]),
            ("informacion_documento".data, .dict
              [("id_documento".data, .str ref_doc),
               ("codigo_unico_documento".data, .str cude_ref),
               ("fecha".data, .str fecha),
               ("hora".data, .str hora),
               ("codigo_tipo_documento".data, .str "TTP".data)]),
            ("detalle_factura".data, .list detalle),
            ("impuestos".data, .list
              [.dict [("codigo_impuesto".data, .str "0".data),
                      ("porcentaje_impuesto".data, .str "0.00".data),
                      ("valor_base_calculo_impuesto".data, .str "0.00".data),
                      ("valor_total_impuesto".data, .str "0.00".data)]]),
            ("retenciones".data, .list
              [.dict [("codigo".data, .str "0".data),
                      ("porcentaje".data, .str "0.00".data),
                      ("valor_base".data, .str "0.00".data),
                      ("valor_retenido".data, .str "0.00".data)]]),
            ("descuentos".data, .list
              [.dict [("codigo_descuento".data, .str "99".data),
                      ("porcentaje_descuento".data, .str "0.00".data),
                      ("valor_base_calculo_descuento".data, .str "0.00".data),
                      ("valor_total_descuento".data, .str "0.00".data)]]),
            ("valor_nota_credito".data, .dict (totalesTTP total)),
            ("formas_de_pago".data, .list
              [.dict [("metodo_de_pago".data, .str "1".data),
                      ("tipo_de_pago".data, .str "10".data),
                      ("identificador_de_pago".data, .str []),
                      ("fecha_vencimiento".data, .str [])]]),
            ("informacion_adquiriente".data, .dict
              [("tipo_contribuyente".data, .str "1".data),
               ("tipo_regimen".data, .str "2".data),
               ("tipo_identificacion".data, .str "31".data),
               ("identificacion".data, .str "830053105".data),
               ("correo_electronico".data, .str "tesoreria@cliente.com".data),
               ("numero_movil".data, .str []),
               ("nombre".data, .dict
                 [("razon_social".data, .str "CLIENTE DEMO".data),
                  ("primer_nombre".data, .str []),
                  ("segundo_nombre".data, .str []),
                  ("apellido".data, .str [])]),
               ("pais".data, .str "CO".data),
               ("departamento".data, .str "11".data),
               ("ciudad".data, .str "11001".data),
               ("direccion".data, .str "Calle 123 # 45-67".data),
               ("RUT".data, .dict
                 [("resp_calidades_atributos".data, .list [.str "O-11".data, .str "R-99-PN".data]),
                  ("usuario_aduanero".data, .list [])]),
               ("detalles_tributarios".data, .str "ZZ".data)])]]),
        ("generalidades".data, .dict
          [("tipo_ambiente_dian".data, .str "2".data),
           ("version".data, .str "1".data),
           ("identificador_transmision".data, .str ("PKG-".data ++ id_nc)),
           ("rg_tipo".data, .str "PDF".data),
           ("rg_base_64".data, .str []),
           ("integrador".data, .dict
             [("nombre".data, .str "ERP-XXXX".data),
              ("tipo".data, .str "ERP".data),
              ("webhook".data, .str [])])])])])

/-- The exact Decimal sum of the valor_nc column of a row list; no value
when some row's valor_nc is unparseable. -/
def listSumDec : List FilaNC → Option Rat
  | [] => some 0
  | r :: rest =>
      match decOfVal r.valor_nc, listSumDec rest with
      | some d, some s => some (ratAdd d s)
      | _, _ => Option.none

/-! ### app_rips_notas2.py: data model and reconciliation -/

/-- One service line item: an open key/value record. -/
abbrev Item := Dict

/-- One patient record: its scalar fields (everything except "servicios")
and its service map, group name to line items.  The source keeps both in
one dict whose "servicios" entry is a dict of lists; the model gives that
entry its own typed field. -/
structure Usuario where
  campos : Dict
  servicios : List (Str × List Item)
deriving DecidableEq

/-- A claims document: the header fields other than "usuarios", and the
ordered patient records. -/
structure NotaDoc where
  resto : Dict
  usuarios : List Usuario
deriving DecidableEq

/-- CAMPOS_PACIENTE, in source order. -/
def CAMPOS_PACIENTE : List Str :=
  ["tipoDocumentoIdentificacion".data, "numDocumentoIdentificacion".data,
   "tipoUsuario".data, "fechaNacimiento".data, "codSexo".data,
   "codPaisResidencia".data, "codMunicipioResidencia".data,
   "codZonaTerritorialResidencia".data, "codPaisOrigen".data,
   "incapacidad".data, "consecutivo".data]

/-- SERVICIO_GRUPOS. -/
def SERVICIO_GRUPOS : List Str :=
  ["consultas".data, "procedimientos".data, "urgencias".data,
   "hospitalizacion".data, "recienNacidos".data, "medicamentos".data,
   "otrosServicios".data]

/-- CODIGOS_LONGITUD: fixed lengths for zero-padded codes. -/
def CODIGOS_LONGITUD : List (Str × Nat) :=
  [("tipoUsuario".data, 2), ("codPaisResidencia".data, 3), ("codPaisOrigen".data, 3),
   ("codMunicipioResidencia".data, 5), ("codZonaTerritorialResidencia".data, 2)]

/-- Python truthiness of a user record (nonempty dict). -/
def usuarioTruthy (u : Usuario) : Bool :=
  !u.campos.isEmpty || !u.servicios.isEmpty

/-- Python truthiness of a document (nonempty dict). -/
def docTruthy (d : NotaDoc) : Bool :=
  !d.resto.isEmpty || !d.usuarios.isEmpty

/-- tiene_lista_con_items: at least one service group holds an item. -/
def tiene_lista_con_items (servicios : List (Str × List Item)) : Bool :=
  servicios.any (fun g => !g.2.isEmpty)

/-- The per-field sign flip of ajustar_signo_servicios: vrServicio and
valorPagoModerador are multiplied by the sign when they hold an int, float
or bool (Python bools are ints, so True becomes the sign itself). -/
def ajustarSignoCampo (signo : Int) (it : Item) (campo : Str) : Item :=
  match getKey it campo with
  | some (.int n) => setKey it campo (.int (n * signo))
  | some (.float q) => setKey it campo (.float (ratMulInt q signo))
  | some (.bool b) => setKey it campo (.int ((if b then 1 else 0) * signo))
  | _ => it

/-- ajustar_signo_servicios over a whole service map. -/
def ajustar_signo_servicios (servicios : List (Str × List Item)) (signo : Int) :
    List (Str × List Item) :=
  servicios.map (fun g => (g.1,
    g.2.map (fun it =>
      ajustarSignoCampo signo (ajustarSignoCampo signo it "vrServicio".data)
        "valorPagoModerador".data)))

/-- normalizar_servicios_usuario on the service map: every fixed group key
exists afterwards, missing ones as empty lists. -/
def normalizar_servicios (serv : List (Str × List Item)) : List (Str × List Item) :=
  SERVICIO_GRUPOS.foldl (fun s grupo => if hasKey s grupo then s else setKey s grupo []) serv

/-- normalizar_servicios_usuario. -/
def normalizar_servicios_usuario (u : Usuario) : Usuario :=
  { u with servicios := normalizar_servicios u.servicios }

/-- normalizar_documento_servicios. -/
def normalizar_documento_servicios (doc : NotaDoc) : NotaDoc :=
  { doc with usuarios := doc.usuarios.map normalizar_servicios_usuario }

/-- str.zfill: left-pad with zeros to the width, keeping a leading sign in
front of the padding. -/
def zfill (s : Str) (width : Nat) : Str :=
  if width ≤ s.length then s
  else
    match s with
    | '-' :: rest => '-' :: (List.replicate (width - s.length) '0' ++ rest)
    | '+' :: rest => '+' :: (List.replicate (width - s.length) '0' ++ rest)
    | _ => List.replicate (width - s.length) '0' ++ s

/-- str.isdigit: nonempty and all decimal digits. -/
def strIsDigit (s : Str) : Bool := !s.isEmpty && s.all Char.isDigit

/-- formatear_codigo_campo: None and "" give "", integral floats become
ints, and the string form is zero-filled to the field's fixed length when
it is all digits and at most that long, or shorter than it. -/
def formatear_codigo_campo (campo : Str) (valor : PyVal) : Str :=
  if valor = .none || pyEq valor (.str []) then []
  else
    let valor :=
      match valor with
      | .float q => if q.den = 1 then .int q.num else .float q
      | v => v
    let s := pyStr valor
    match getKey CODIGOS_LONGITUD campo with
    | some longitud =>
        if longitud ≠ 0 then
          if strIsDigit s ∧ s.length ≤ longitud then zfill s longitud
          else if s.length < longitud then zfill s longitud
          else s
        else s
    | Option.none => s

/-- The four code fields of the normalization loop, in source order. -/
def CAMPOS_CODIGOS : List Str :=
  ["codPaisResidencia".data, "codPaisOrigen".data,
   "codMunicipioResidencia".data, "codZonaTerritorialResidencia".data]

/-- One iteration of the code-padding loop of normalizar_codigos_usuarios:
a present, non-blank code field is zero-padded in place. -/
def normCodeStep (cs : Dict) (campo : Str) : Dict :=
  match getKey cs campo with
  | some v =>
      if !isNoneOrEmptyStr v then
        setKey cs campo (.str (formatear_codigo_campo campo v))
      else cs
  | Option.none => cs

/-- The birth-date truncation of normalizar_codigos_usuarios: a present,
truthy fechaNacimiento is replaced by its first ten characters. -/
def normFechaStep (cs : Dict) : Dict :=
  match getKey cs "fechaNacimiento".data with
  | some v =>
      if pyTruthy v then setKey cs "fechaNacimiento".data (.str ((pyStr v).take 10))
      else cs
  | Option.none => cs

/-- The consecutivo branch of normalizar_codigos_usuarios, which in the
source assigns int(consecutivo) to the leftover loop variable campo, still
bound to "codZonaTerritorialResidencia". -/
def normConsecutivoStep (cs : Dict) : Dict :=
  match getKey cs "consecutivo".data with
  | some v =>
      if !isNoneOrEmptyStr v then
        match pyToInt v with
        | some n => setKey cs "codZonaTerritorialResidencia".data (.int n)
        | Option.none => cs
      else cs
  | Option.none => cs

/-- The per-user body of normalizar_codigos_usuarios: tipoUsuario is forced
to "08", the four code fields are zero-padded when present and non-blank,
the birth date is truncated, and the consecutivo branch runs. -/
def normalizarUsuario (u : Usuario) : Usuario :=
  { u with campos :=
      normConsecutivoStep (normFechaStep
        (CAMPOS_CODIGOS.foldl normCodeStep
          (setKey u.campos "tipoUsuario".data (.str "08".data)))) }

/-- normalizar_codigos_usuarios over a whole document. -/
def normalizar_codigos_usuarios (nota : NotaDoc) : NotaDoc :=
  { nota with usuarios := nota.usuarios.map normalizarUsuario }

/-- Association lookup with a caller-supplied key equality (Python dicts
compare keys with ==). -/
def pmapGet {κ β : Type} (eq : κ → κ → Bool) (m : List (κ × β)) (k : κ) : Option β :=
  match m.find? (fun p => eq p.1 k) with
  | some p => some p.2
  | Option.none => Option.none

/-- Association insert with override: an existing key keeps its position and
gets the new value, a new key is appended — Python dict assignment. -/
def pmapInsert {κ β : Type} (eq : κ → κ → Bool) (m : List (κ × β)) (k : κ) (v : β) :
    List (κ × β) :=
  if m.any (fun p => eq p.1 k) then m.map (fun p => if eq p.1 k then (p.1, v) else p)
  else m ++ [(k, v)]

/-- Python == on (tipo, num) key pairs. -/
def pairEq (a b : PyVal × PyVal) : Bool := pyEq a.1 b.1 && pyEq a.2 b.2

/-- The two lookup indices over the reference document's users. -/
structure MapasFactura where
  full : List ((PyVal × PyVal) × Usuario)
  byNum : List (PyVal × Usuario)

/-- Builds inv_map_full and inv_map_by_num: users without a truthy document
number are skipped; the full index additionally needs a truthy type; later
users override earlier ones sharing a key. -/
def construirMapas (inv_users : List Usuario) : MapasFactura :=
  inv_users.foldl (fun m u =>
    let tipo := (getKey u.campos "tipoDocumentoIdentificacion".data).getD .none
    let num := (getKey u.campos "numDocumentoIdentificacion".data).getD .none
    if !pyTruthy num then m
    else
      { full := if pyTruthy tipo then pmapInsert pairEq m.full (tipo, num) u else m.full
        byNum := pmapInsert pyEq m.byNum num u })
    { full := [], byNum := [] }

/-- The reference lookup for one target user: the exact (type, number) key
first; a miss — or a falsy hit, since the source chains the two lookups
with `or` — falls back to the number-only index keyed by num or "". -/
def buscarUsuarioFactura (m : MapasFactura) (tipo num : PyVal) : Option Usuario :=
  let fbKey := if pyTruthy num then num else .str []
  match pmapGet pairEq m.full (tipo, num) with
  | some u => if usuarioTruthy u then some u else pmapGet pyEq m.byNum fbKey
  | Option.none => pmapGet pyEq m.byNum fbKey

/-- The per-field demographic copy rule of step 3 of
copiar_servicios_factura_a_nota: tipoUsuario is forced to "08" regardless of
the reference; a blank or absent reference value leaves the target field
alone; any other reference value is written over the target — as an int for
consecutivo when convertible, truncated to ten characters for the birth
date, zero-padded for the fixed-length code fields, and stringified for the
rest. -/
def copiarCampo (u_fact : Usuario) (campo : Str) (campos : Dict) : Dict :=
  if campo = "tipoUsuario".data then setKey campos campo (.str "08".data)
  else if isNoneOrEmptyStr ((getKey u_fact.campos campo).getD .none) then campos
  else if campo = "consecutivo".data then
    match pyToInt ((getKey u_fact.campos campo).getD .none) with
    | some n => setKey campos campo (.int n)
    | Option.none => setKey campos campo ((getKey u_fact.campos campo).getD .none)
  else if campo = "fechaNacimiento".data then
    setKey campos campo (.str ((pyStr ((getKey u_fact.campos campo).getD .none)).take 10))
  else if hasKey CODIGOS_LONGITUD campo then
    setKey campos campo
      (.str (formatear_codigo_campo campo ((getKey u_fact.campos campo).getD .none)))
  else setKey campos campo (.str (pyStr ((getKey u_fact.campos campo).getD .none)))

/-- Step 3 of the reconciler: the demographic copy loop over
CAMPOS_PACIENTE. -/
def copiarCamposPaciente (u_fact : Usuario) (campos : Dict) : Dict :=
  CAMPOS_PACIENTE.foldl (fun cs campo => copiarCampo u_fact campo cs) campos

/-- What happened to one target user during reconciliation. -/
inductive EventoUsuario where
  | sinEncontrar (tipo num : PyVal)
  | procesado (yaTenia : Bool)
deriving DecidableEq

/-- Processing of one target user of copiar_servicios_factura_a_nota:
match, unconditional demographic copy, service-map normalization on both
sides, and the service copy only when the target still has no items (with
the optional sign flip). -/
def procesarUsuarioNota (m : MapasFactura) (forzar_signo : Option Int) (u : Usuario) :
    Usuario × EventoUsuario :=
  let tipo := (getKey u.campos "tipoDocumentoIdentificacion".data).getD .none
  let num := (getKey u.campos "numDocumentoIdentificacion".data).getD .none
  match buscarUsuarioFactura m tipo num with
  | Option.none => (u, .sinEncontrar tipo num)
  | some u_fact =>
      let u := { campos := copiarCamposPaciente u_fact u.campos
                 servicios := normalizar_servicios u.servicios }
      let u_fact := normalizar_servicios_usuario u_fact
      if tiene_lista_con_items u.servicios then (u, .procesado true)
      else
        let nuevo :=
          match forzar_signo with
          | some s =>
              if s = 1 ∨ s = -1 then ajustar_signo_servicios u_fact.servicios s
              else u_fact.servicios
          | Option.none => u_fact.servicios
        ({ u with servicios := nuevo }, .procesado false)

/-- The reconciliation summary. -/
structure ResumenCopiar where
  total_usuarios_factura : Nat
  total_usuarios_nota : Nat
  usuarios_modificados : Nat
  usuarios_ya_tenian_servicios : Nat
  usuarios_demografia_completada : Nat
  usuarios_sin_encontrar : List (PyVal × PyVal)
deriving DecidableEq

/-- copiar_servicios_factura_a_nota: per-user processing against the two
reference indices, the final document-wide code normalization, and the
summary.  (The source also normalizes the matched reference users in place;
that mutation is invisible in the returned note and changes no later match,
since it only adds empty service groups.) -/
def copiar_servicios_factura_a_nota (factura nota : NotaDoc)
    (forzar_signo : Option Int := Option.none) : NotaDoc × ResumenCopiar :=
  let m := construirMapas factura.usuarios
  let resultados := nota.usuarios.map (procesarUsuarioNota m forzar_signo)
  let eventos := resultados.map Prod.snd
  let nota2 := normalizar_codigos_usuarios { nota with usuarios := resultados.map Prod.fst }
  (nota2,
   { total_usuarios_factura := factura.usuarios.length
     total_usuarios_nota := nota.usuarios.length
     usuarios_modificados := eventos.countP (fun e => e = .procesado false)
     usuarios_ya_tenian_servicios := eventos.countP (fun e => e = .procesado true)
     usuarios_demografia_completada :=
       eventos.countP (fun e => match e with | .procesado _ => true | _ => false)
     usuarios_sin_encontrar :=
       eventos.filterMap (fun e =>
         match e with
         | .sinEncontrar t n => some (t, n)
         | _ => Option.none) })

/-! ### app_rips_notas2.py: the service template (flatten and apply) -/

/-- Lexicographic strict order on character lists. -/
def strLt : Str → Str → Bool
  | [], [] => false
  | [], _ :: _ => true
  | _ :: _, [] => false
  | a :: as, b :: bs => if a < b then true else if b < a then false else strLt as bs

/-- Insertion into a sorted list of strings. -/
def insertSortedStr (x : Str) : List Str → List Str
  | [] => [x]
  | y :: ys => if strLt y x then y :: insertSortedStr x ys else x :: y :: ys

/-- sorted() over strings. -/
def sortStrings (l : List Str) : List Str := l.foldr insertSortedStr []

/-- Scans every service item of a document, keeping the key set of the item
with strictly the most keys (set(item.keys()) is the deduplicated key
list). -/
def mejoresClavesDoc (doc : NotaDoc) (acc : List Str × Nat) : List Str × Nat :=
  doc.usuarios.foldl (fun acc u =>
    u.servicios.foldl (fun acc g =>
      g.2.foldl (fun acc item =>
        let ks := (item.map Prod.fst).eraseDups
        if acc.2 < ks.length then (ks, ks.length) else acc) acc) acc) acc

/-- obtener_claves_servicio_esperadas: the sorted key set of the single
richest service item across reference then target (falsy documents are
skipped). -/
def obtener_claves_servicio_esperadas (factura nota : Option NotaDoc) : List Str :=
  let step := fun (acc : List Str × Nat) (doc : Option NotaDoc) =>
    match doc with
    | some d => if docTruthy d then mejoresClavesDoc d acc else acc
    | Option.none => acc
  sortStrings (step (step ([], 0) factura) nota).1

/-- One row skeleton produced by desglosar for one service item: a dict
seeded with the group and the index, then fila[clave] = item.get(clave) for
every expected key - a dict assignment that overwrites an earlier binding,
including the two seeded ones when an expected key collides with them - and
finally fila["campos_faltantes"] = the comma-joined blank fields. -/
def filaServicio (claves : List Str) (tipo_serv : Str) (idx : Nat) (item : Item) : Dict :=
  setKey
    (claves.foldl (fun f c => setKey f c ((getKey item c).getD .none))
      [("tipo_servicio".data, .str tipo_serv), ("idx_item".data, .int idx)])
    "campos_faltantes".data
    (.str (joinSep [','] (claves.filter (fun c => isNoneOrEmptyStr ((getKey item c).getD .none)))))

/-- desglosar_servicios_usuario: one row skeleton per service item. -/
def desglosar_servicios_usuario (usuario : Option Usuario) (claves : List Str) : List Dict :=
  match usuario with
  | Option.none => []
  | some u =>
      u.servicios.flatMap (fun g =>
        g.2.enum.map (fun p => filaServicio claves g.1 p.1 p.2))

/-- The patient-field value carried into a template row: the target's when
the target has the field, else the reference's, else None. -/
def campoPacienteDe (u_nota u_fac : Option Usuario) (campo : Str) : PyVal :=
  match u_nota with
  | some un =>
      if hasKey un.campos campo then (getKey un.campos campo).getD .none
      else
        match u_fac with
        | some uf => if hasKey uf.campos campo then (getKey uf.campos campo).getD .none else .none
        | Option.none => .none
  | Option.none =>
      match u_fac with
      | some uf => if hasKey uf.campos campo then (getKey uf.campos campo).getD .none else .none
      | Option.none => .none

/-- agregar_campos_paciente: appends every CAMPOS_PACIENTE column to a
row. -/
def agregarCamposPaciente (u_nota u_fac : Option Usuario) (base : Dict) : Dict :=
  CAMPOS_PACIENTE.foldl (fun b campo => setKey b campo (campoPacienteDe u_nota u_fac campo)) base

/-- The template rows of one target user: one row per target item carrying
the reference amount found at the same (group, index) position, or — when
the target has no items at all — placeholder rows from the reference. -/
def filasUsuarioPlantilla (claves : List Str) (idx_u : Nat) (u_nota : Usuario)
    (u_fac : Option Usuario) : List Dict :=
  let filas_nota := desglosar_servicios_usuario (some u_nota) claves
  let filas_fac :=
    match u_fac with
    | some uf => if usuarioTruthy uf then desglosar_servicios_usuario (some uf) claves else []
    | Option.none => []
  if !filas_nota.isEmpty then
    filas_nota.map (fun f =>
      let ts := (getKey f "tipo_servicio".data).getD .none
      let ii := (getKey f "idx_item".data).getD .none
      let base_fac := ((filas_fac.find? (fun f2 =>
        pyEq ((getKey f2 "tipo_servicio".data).getD .none) ts &&
        pyEq ((getKey f2 "idx_item".data).getD .none) ii)).getD [])
      let fila : Dict :=
        [("idx_usuario".data, .int idx_u),
         ("tipo_servicio".data, ts),
         ("idx_item".data, ii),
         ("vrServicio_factura".data, (getKey base_fac "vrServicio".data).getD .none),
         ("vrServicio_nota".data, (getKey f "vrServicio".data).getD .none),
         ("campos_faltantes_nota".data, (getKey f "campos_faltantes".data).getD (.str []))]
      agregarCamposPaciente (some u_nota) u_fac fila)
  else
    filas_fac.map (fun f =>
      let fila : Dict :=
        [("idx_usuario".data, .int idx_u),
         ("tipo_servicio".data, (getKey f "tipo_servicio".data).getD .none),
         ("idx_item".data, (getKey f "idx_item".data).getD .none),
         ("vrServicio_factura".data, (getKey f "vrServicio".data).getD .none),
         ("vrServicio_nota".data, .none),
         ("campos_faltantes_nota".data, .str "USUARIO SIN SERVICIOS EN NOTA".data)]
      agregarCamposPaciente (some u_nota) u_fac fila)

/-- A pandas data frame as the template functions use it: the column names
and one association-list row per record.  An absent cell reads as None,
which pd.isna treats like NaN. -/
structure DF where
  cols : List Str
  rows : List Dict
deriving DecidableEq

/-- The column list of the generated template frame (the construction order
of every row). -/
def PLANTILLA_COLS : List Str :=
  ["idx_usuario".data, "tipo_servicio".data, "idx_item".data,
   "vrServicio_factura".data, "vrServicio_nota".data, "campos_faltantes_nota".data] ++
  CAMPOS_PACIENTE

/-- generar_plantilla_servicios: the data frame behind the downloadable
template (the Excel/CSV serialization is the excluded collaborator).  A
document producing no rows yields a frame with no columns, exactly as
pd.DataFrame of an empty list does. -/
def generar_plantilla_servicios (nota : NotaDoc) (factura : Option NotaDoc) : DF :=
  let claves := obtener_claves_servicio_esperadas factura (some nota)
  let usuarios_fac :=
    match factura with
    | some f => if docTruthy f then f.usuarios else []
    | Option.none => []
  let filas := (List.range nota.usuarios.length).flatMap (fun idx_u =>
    match nota.usuarios.get? idx_u with
    | some u_nota => filasUsuarioPlantilla claves idx_u u_nota (usuarios_fac.get? idx_u)
    | Option.none => [])
  { cols := if filas.isEmpty then [] else PLANTILLA_COLS, rows := filas }

/-- The obligatory template columns, in the order the source checks them. -/
def COLS_OBLIGATORIAS : List Str :=
  ["idx_usuario".data, "tipo_servicio".data, "idx_item".data, "vrServicio_nota".data]

/-- pd.isna on a model cell (None; the model carries no float NaN). -/
def isNaCell (v : PyVal) : Bool := v = .none

/-- Python list indexing with negative indices; an index out of range on
either side reads nothing (the source only reaches guarded indices). -/
def pyGetIdx {α : Type} (l : List α) (i : Int) : Option α :=
  if 0 ≤ i then l.get? i.toNat
  else if (-i).toNat ≤ l.length then l.get? (l.length - (-i).toNat) else Option.none

/-- Python list item assignment with negative indices; out of range writes
nothing (the source only reaches guarded indices). -/
def pySetIdx {α : Type} (l : List α) (i : Int) (x : α) : List α :=
  if 0 ≤ i then l.set i.toNat x else l.set (l.length - (-i).toNat) x

/-- The running state of the apply loop: the target users, the collected
error strings, and the set of updated user indices from
st.session_state. -/
structure EstadoAplicar where
  usuarios : List Usuario
  errores : List Str
  updated : List Nat
deriving DecidableEq

/-- The demographic update for one template column: absent columns and NaN
cells are skipped, any other value overwrites the target field, with
tipoUsuario forced to "08", consecutivo coerced to int when possible, the
birth date truncated to ten characters, code fields zero-padded, and other
fields stringified (integral floats as ints). -/
def aplicarCampoPlantilla (fila : Dict) (cols : List Str) (campos : Dict) (campo : Str) :
    Dict :=
  if !cols.contains campo then campos
  else
    let valor := (getKey fila campo).getD .none
    if isNaCell valor then campos
    else if campo = "tipoUsuario".data then setKey campos campo (.str "08".data)
    else if campo = "consecutivo".data then
      match pyToInt valor with
      | some n => setKey campos campo (.int n)
      | Option.none => setKey campos campo valor
    else if campo = "fechaNacimiento".data then
      setKey campos campo (.str ((pyStr valor).take 10))
    else if hasKey CODIGOS_LONGITUD campo then
      setKey campos campo (.str (formatear_codigo_campo campo valor))
    else
      let valor :=
        match valor with
        | .float q => if q.den = 1 then .int q.num else .float q
        | v => v
      setKey campos campo (.str (pyStr valor))

/-- One row of aplicar_plantilla_servicios: parse the indices, skip rows
whose vrServicio_nota is NaN, update the demographics, seed a missing
service slot from the reference when possible, and overwrite vrServicio
with float(vrServicio_nota).  Non-fatal failures append an error string and
keep whatever had already been written. -/
def aplicarFila (facturaOk : Bool) (usuarios_fac : List Usuario) (cols : List Str)
    (st : EstadoAplicar) (fila : Dict) : EstadoAplicar :=
  match pyToInt ((getKey fila "idx_usuario".data).getD .none) with
  | Option.none =>
      { st with errores := st.errores ++
          ["Índice de usuario inválido: ".data ++
           pyStr ((getKey fila "idx_usuario".data).getD .none)] }
  | some idx_u =>
    let tipo_serv := pyStr ((getKey fila "tipo_servicio".data).getD .none)
    match pyToInt ((getKey fila "idx_item".data).getD .none) with
    | Option.none =>
        { st with errores := st.errores ++
            ["Índice de ítem inválido para usuario ".data ++ intStr idx_u ++ ": ".data ++
             pyStr ((getKey fila "idx_item".data).getD .none)] }
    | some idx_item =>
      let vr_nota := (getKey fila "vrServicio_nota".data).getD .none
      if isNaCell vr_nota then st
      else if !(0 ≤ idx_u ∧ idx_u < (st.usuarios.length : Int)) then
        { st with errores := st.errores ++
            ["Índice de usuario ".data ++ intStr idx_u ++ " fuera de rango.".data] }
      else
        let idx := idx_u.toNat
        let usuario0 := (st.usuarios.get? idx).getD ⟨[], []⟩
        let usuario1 : Usuario :=
          { usuario0 with campos :=
              CAMPOS_PACIENTE.foldl (aplicarCampoPlantilla fila cols) usuario0.campos }
        let servicios0 := usuario1.servicios
        let lista0 := getKey servicios0 tipo_serv
        let existe :=
          match lista0 with
          | some l => decide (idx_item < (l.length : Int))
          | Option.none => false
        let seeded : Except Str (List (Str × List Item)) :=
          if existe then .ok servicios0
          else if !facturaOk then
            .error ("No existe estructura para usuario ".data ++ intStr idx_u ++
              ", tipo '".data ++ tipo_serv ++ "', ítem ".data ++ intStr idx_item ++
              " y no hay factura.".data)
          else if !(0 ≤ idx_u ∧ idx_u < (usuarios_fac.length : Int)) then
            .error ("No se encontró usuario ".data ++ intStr idx_u ++
              " en factura para crear estructura.".data)
          else
            let usuario_fac := (usuarios_fac.get? idx).getD ⟨[], []⟩
            match getKey usuario_fac.servicios tipo_serv with
            | some lista_fac =>
                if decide (idx_item < (lista_fac.length : Int)) then
                  match pyGetIdx lista_fac idx_item with
                  | some item_base =>
                      let lista := lista0.getD []
                      let lista := lista ++ List.replicate (idx_item + 1 - lista.length).toNat []
                      .ok (setKey servicios0 tipo_serv (pySetIdx lista idx_item item_base))
                  | Option.none =>
                      .error "IndexError: list index out of range".data
                else
                  .error ("No hay línea base en factura para usuario ".data ++ intStr idx_u ++
                    ", tipo '".data ++ tipo_serv ++ "', ítem ".data ++ intStr idx_item ++ ".".data)
            | Option.none =>
                .error ("No hay línea base en factura para usuario ".data ++ intStr idx_u ++
                  ", tipo '".data ++ tipo_serv ++ "', ítem ".data ++ intStr idx_item ++ ".".data)
        match seeded with
        | .error e =>
            { usuarios := st.usuarios.set idx usuario1
              errores := st.errores ++ [e]
              updated := st.updated }
        | .ok servicios1 =>
          let lista := (getKey servicios1 tipo_serv).getD []
          if !decide (idx_item < (lista.length : Int)) then
            { usuarios := st.usuarios.set idx { usuario1 with servicios := servicios1 }
              errores := st.errores ++
                ["No se pudo asegurar la estructura para usuario ".data ++ intStr idx_u ++
                 ", tipo '".data ++ tipo_serv ++ "', ítem ".data ++ intStr idx_item ++ ".".data]
              updated := st.updated }
          else
            match pyToFloat vr_nota with
            | Option.none =>
                { usuarios := st.usuarios.set idx { usuario1 with servicios := servicios1 }
                  errores := st.errores ++
                    ["Valor vrServicio_nota inválido en usuario ".data ++ intStr idx_u ++
                     ", tipo '".data ++ tipo_serv ++ "', ítem ".data ++ intStr idx_item ++
                     ": ".data ++ pyStr vr_nota]
                  updated := st.updated }
            | some q =>
                let item_nota := (pyGetIdx lista idx_item).getD []
                let item_nota := setKey item_nota "vrServicio".data (.float q)
                let lista2 := pySetIdx lista idx_item item_nota
                let servicios2 := setKey servicios1 tipo_serv lista2
                { usuarios := st.usuarios.set idx { usuario1 with servicios := servicios2 }
                  errores := st.errores
                  updated := st.updated ++ [idx] }

/-- Sorted insertion without duplicates, for the updated-index set. -/
def insertSortedNat (x : Nat) : List Nat → List Nat
  | [] => [x]
  | y :: ys => if y < x then y :: insertSortedNat x ys else if y = x then y :: ys else x :: y :: ys

/-- sorted(list(set(l))). -/
def dedupSortNat (l : List Nat) : List Nat := l.foldl (fun acc x => insertSortedNat x acc) []

/-- aplicar_plantilla_servicios.  The spreadsheet parse is the excluded
collaborator: the model receives the parsed frame, with an unreadable file
modelled by passing none; the st.session_state updated-index set is passed
and returned explicitly.  Both early failure paths return the note exactly
as it came in — only the successful path runs the final code
normalization. -/
def aplicar_plantilla_servicios (nota : NotaDoc) (factura : Option NotaDoc)
    (plantilla : Option DF) (updated0 : List Nat) : NotaDoc × List Str × List Nat :=
  match plantilla with
  | Option.none => (nota, ["No se pudo leer la plantilla: error de lectura".data], updated0)
  | some df =>
      match COLS_OBLIGATORIAS.find? (fun c => !df.cols.contains c) with
      | some col =>
          (nota, ["Falta columna obligatoria '".data ++ col ++ "' en la plantilla.".data],
           updated0)
      | Option.none =>
          let facturaOk :=
            match factura with
            | some f => docTruthy f
            | Option.none => false
          let usuarios_fac :=
            match factura with
            | some f => if docTruthy f then f.usuarios else []
            | Option.none => []
          let st0 : EstadoAplicar := { usuarios := nota.usuarios, errores := [], updated := updated0 }
          let stF := df.rows.foldl (aplicarFila facturaOk usuarios_fac df.cols) st0
          let nota2 := normalizar_codigos_usuarios { nota with usuarios := stF.usuarios }
          (nota2, stF.errores, dedupSortNat stF.updated)

/-- The flatten-then-apply round trip on an unmodified frame, starting from
an empty updated set. -/
def roundTripPlantilla (nota : NotaDoc) (factura : Option NotaDoc) : NotaDoc :=
  (aplicar_plantilla_servicios nota factura (some (generar_plantilla_servicios nota factura)) []).1

/-- The service item at (patient i, group g, index j), when the document
has one. -/
def itemAt (doc : NotaDoc) (i : Nat) (g : Str) (j : Nat) : Option Item :=
  match doc.usuarios.get? i with
  | some u =>
      match getKey u.servicios g with
      | some lista => lista.get? j
      | Option.none => Option.none
  | Option.none => Option.none

/-- The vrServicio value at (patient i, group g, index j): no value when
the item is missing or lacks the key. -/
def vrAt (doc : NotaDoc) (i : Nat) (g : Str) (j : Nat) : Option PyVal :=
  (itemAt doc i g j).bind (fun item => getKey item "vrServicio".data)

/-! ### app_rips_notas2.py: CDATA template surgery -/

/-- pat occurs at position i of s. -/
def isPrefixAt (pat s : Str) (i : Nat) : Bool := pat.isPrefixOf (s.drop i)

/-- Scans positions i, i+1, … while fuel lasts. -/
def findSubFromAux (pat s : Str) : Nat → Nat → Option Nat
  | _, 0 => Option.none
  | i, fuel + 1 => if isPrefixAt pat s i then some i else findSubFromAux pat s (i + 1) (fuel)

/-- str.find(pat, start): the least index at or after start where pat
occurs, if any. -/
def findSubFrom (pat s : Str) (start : Nat) : Option Nat :=
  findSubFromAux pat s start (s.length + 1 - start)

/-- pat in s. -/
def containsSub (pat s : Str) : Bool := (findSubFrom pat s 0).isSome

/-- s.replace(" ", ""). -/
def removeSpaces (s : Str) : Str := s.filter (fun c => !(c = ' '))

/-- incrustar_rips_en_attacheddocument_bytes: locate the first
cbc:Description open tag, the CDATA opener after it and the closing marker;
refuse templates whose CDATA holds a CreditNote or no RipsDocumento, and
new content without a RipsDocumento; then splice the new content strictly
between the markers, leaving every other character alone.  Byte decoding is
modelled away: both arguments are already text. -/
def incrustar_rips_en_attacheddocument_bytes (attached_text rips_text : Str) :
    Except Str Str :=
  match findSubFrom "<cbc:Description".data attached_text 0 with
  | Option.none =>
      .error "No se encontró '<cbc:Description' en el XML de plantilla. Asegúrate de usar el AttachedDocument RIPS, no el XML de la Nota Crédito DIAN.".data
  | some idx_desc =>
  match findSubFrom "<![CDATA[".data attached_text idx_desc with
  | Option.none =>
      .error "No se encontró '<![CDATA[' después de <cbc:Description> en la plantilla. Verifica que el AttachedDocument RIPS tenga el RipsDocumento dentro de CDATA.".data
  | some idx_cdata =>
  let idx_content := idx_cdata + "<![CDATA[".data.length
  match findSubFrom "]]></cbc:Description>".data attached_text idx_content with
  | Option.none =>
      .error "No se encontró ']]></cbc:Description>' en el XML de plantilla.".data
  | some idx_end =>
  let original_cdata := (attached_text.drop idx_content).take (idx_end - idx_content)
  if containsSub "<CreditNote".data original_cdata ||
      containsSub "<CreditNote".data (removeSpaces original_cdata) then
    .error "La plantilla XML corresponde a una Nota Crédito DIAN (tiene <CreditNote> en el CDATA). Esta NO es una plantilla RIPS. No uses aquí el XML de la Nota Crédito DIAN; usa el AttachedDocument RIPS (el que tiene <RipsDocumento> dentro del CDATA).".data
  else if !(containsSub "<RipsDocumento".data original_cdata ||
            containsSub "<RipsDocumento".data (removeSpaces original_cdata)) then
    .error "La plantilla XML no parece ser un AttachedDocument RIPS (no se encontró '<RipsDocumento>' dentro del CDATA). Probablemente estás usando un XML que no es RIPS.".data
  else if !(containsSub "<RipsDocumento".data rips_text ||
            containsSub "<RipsDocumento".data (removeSpaces rips_text)) then
    .error "El XML generado de la nota no contiene '<RipsDocumento>'. Revisa que el RipsDocumento se haya construido correctamente.".data
  else
    .ok (attached_text.take idx_content ++ rips_text ++ attached_text.drop idx_end)

/-- The value step 3 of the reconciler writes for one demographic field
when the reference value is non-blank: consecutivo as an int when
convertible, the birth date truncated to ten characters, the fixed-length
code fields zero-padded, everything else stringified. -/
def valorCopiadoCampo (campo : Str) (val : PyVal) : PyVal :=
  if campo = "consecutivo".data then
    match pyToInt val with
    | some n => .int n
    | Option.none => val
  else if campo = "fechaNacimiento".data then .str ((pyStr val).take 10)
  else if hasKey CODIGOS_LONGITUD campo then .str (formatear_codigo_campo campo val)
  else .str (pyStr val)

/-- Reads field k of the valor_nota_credito block of a TTP payload. -/
def totalsField (p : PyVal) (k : Str) : Option PyVal :=
  match p with
  | .dict d =>
      match getKey d "data".data with
      | some (.dict dd) =>
          match getKey dd "nota_credito".data with
          | some (.list (.dict b :: _)) =>
              match getKey b "valor_nota_credito".data with
              | some (.dict tot) => getKey tot k
              | _ => Option.none
          | _ => Option.none
      | _ => Option.none
  | _ => Option.none

/-! ## Theorems -/

/-! ### Concrete documents used by counterexamples and witnesses -/

/-- A reference user CC/1 with populated codSexo "M". -/
def uFactC1 : Usuario :=
  { campos := [("tipoDocumentoIdentificacion".data, .str "CC".data),
               ("numDocumentoIdentificacion".data, .str "1".data),
               ("codSexo".data, .str "M".data)],
    servicios := [] }

/-- A target user CC/1 whose codSexo is already populated with "F". -/
def uNotaC1 : Usuario :=
  { campos := [("tipoDocumentoIdentificacion".data, .str "CC".data),
               ("numDocumentoIdentificacion".data, .str "1".data),
               ("codSexo".data, .str "F".data)],
    servicios := [] }

/-- The reference document of the C1 counterexample. -/
def factC1 : NotaDoc := { resto := [], usuarios := [uFactC1] }

/-- The target document of the C1 counterexample. -/
def notaC1 : NotaDoc := { resto := [], usuarios := [uNotaC1] }

/-- A target user CC/9 with tipoUsuario "01" and no reference match. -/
def uNotaC2 : Usuario :=
  { campos := [("tipoDocumentoIdentificacion".data, .str "CC".data),
               ("numDocumentoIdentificacion".data, .str "9".data),
               ("tipoUsuario".data, .str "01".data)],
    servicios := [] }

/-- An empty reference document. -/
def factC2 : NotaDoc := { resto := [], usuarios := [] }

/-- The target document of the C2 counterexample. -/
def notaC2 : NotaDoc := { resto := [], usuarios := [uNotaC2] }

/-- A note document whose single service item stores vrServicio as the
int 1. -/
def notaC3 : NotaDoc :=
  { resto := [],
    usuarios := [{ campos := [("tipoDocumentoIdentificacion".data, .str "CC".data),
                              ("numDocumentoIdentificacion".data, .str "1".data)],
                   servicios := [("consultas".data, [[("vrServicio".data, .int 1)]])] }] }

/-- A note document whose consultas item uses the reserved column names
tipo_servicio and idx_item as field names, redirecting its template row to
procedimientos[0]. -/
def notaC3b : NotaDoc :=
  { resto := [],
    usuarios := [{ campos := [("numDocumentoIdentificacion".data, .str "1".data)],
                   servicios :=
                     [("consultas".data,
                        [[("vrServicio".data, .int 5),
                          ("tipo_servicio".data, .str "procedimientos".data),
                          ("idx_item".data, .int 0)]]),
                      ("procedimientos".data, [[("vrServicio".data, .int 7)]])] }] }

/-- The JSON rendering of a scalar number as json.dumps emits it (ints bare,
floats through repr). -/
def jsonNum : PyVal → Str
  | .int n => intStr n
  | .float q => pyFloatRepr q
  | v => jsonDumps v

/-! ### C7 -/

/-- C7: formatDecimal, as construir_payload_nota_credito applies it to the
line-item monetary fields, rejects the comma-grouped numeral "4,992,000.5"
with the InvalidNumericValue error, while the single decimal comma in
"4992000,50" normalizes to "4992000.50". -/
theorem C7_fmt_dec_line_items :
    normalizar_item_detalle [("valor_unitario".data, .str "4,992,000.5".data)] =
      .error "Valor numérico inválido: 4,992,000.5".data ∧
    normalizar_item_detalle [("valor_unitario".data, .str "4992000,50".data)] =
      .ok [("valor_unitario".data, .str "4992000.50".data)] ∧
    fmt_dec (.str "4,992,000.5".data) 2 =
      .error "Valor numérico inválido: 4,992,000.5".data ∧
    fmt_dec (.str "4992000,50".data) 2 = .ok "4992000.50".data := by
  refine ⟨by decide, by decide, by decide, by decide⟩

/-! ### Dictionary lemmas -/

theorem getKey_setKey_self {β : Type} (d : List (Str × β)) (k : Str) (v : β) :
    getKey (setKey d k v) k = some v := by
  induction d with
  | nil => simp [setKey, getKey]
  | cons p rest ih =>
      obtain ⟨k1, v1⟩ := p
      by_cases h : k1 = k
      · subst h; simp [setKey, getKey]
      · simp [setKey, h, getKey, ih]

theorem getKey_setKey_ne {β : Type} (d : List (Str × β)) (k k2 : Str) (v : β)
    (h : k ≠ k2) : getKey (setKey d k v) k2 = getKey d k2 := by
  induction d with
  | nil => simp [setKey, getKey, h]
  | cons p rest ih =>
      obtain ⟨k1, v1⟩ := p
      by_cases h1 : k1 = k
      · subst h1; simp [setKey, getKey, h]
      · simp [setKey, h1, getKey, ih]

/-! ### C1: the demographic copy overwrites populated target fields -/

theorem copiarCampo_getKey_ne (u_fact : Usuario) (campo k : Str) (campos : Dict)
    (h : campo ≠ k) :
    getKey (copiarCampo u_fact campo campos) k = getKey campos k := by
  unfold copiarCampo
  split_ifs <;> try (first | rfl | exact getKey_setKey_ne _ _ _ _ h)
  split <;> exact getKey_setKey_ne _ _ _ _ h

theorem copiarCampo_getKey_self (u_fact : Usuario) (campo : Str) (campos : Dict) :
    getKey (copiarCampo u_fact campo campos) campo =
      (if campo = "tipoUsuario".data then some (.str "08".data)
       else if isNoneOrEmptyStr ((getKey u_fact.campos campo).getD .none) then
         getKey campos campo
       else some (valorCopiadoCampo campo ((getKey u_fact.campos campo).getD .none))) := by
  unfold copiarCampo valorCopiadoCampo
  split_ifs <;> try (first | rfl | exact getKey_setKey_self _ _ _)
  all_goals split <;> simp [getKey_setKey_self]

/-- C1 (amended): in step 3 of reconcile (copiar_servicios_factura_a_nota),
for every demographic field of a matched pair, the reference's value — when
non-blank — is copied over the target field with the field-specific
normalization, regardless of whether the target field was already
populated; the target keeps its value only when the reference's value is
blank or absent; and tipoUsuario is unconditionally forced to "08". -/
theorem C1_copy_overwrites_populated_fields (u_fact : Usuario) (campos : Dict)
    (campo : Str) (hc : campo ∈ CAMPOS_PACIENTE) :
    getKey (copiarCamposPaciente u_fact campos) campo =
      (if campo = "tipoUsuario".data then some (.str "08".data)
       else if isNoneOrEmptyStr ((getKey u_fact.campos campo).getD .none) then
         getKey campos campo
       else some (valorCopiadoCampo campo ((getKey u_fact.campos campo).getD .none))) := by
  simp only [CAMPOS_PACIENTE] at hc
  unfold copiarCamposPaciente
  simp only [CAMPOS_PACIENTE, List.foldl_cons, List.foldl_nil]
  fin_cases hc <;>
    simp (disch := decide) only [copiarCampo_getKey_ne, copiarCampo_getKey_self]

/-- C1 witness: on the concrete matched pair of the counterexample
documents, step 3 rewrites codSexo with the reference's value "M". -/
theorem C1_witness :
    getKey (copiarCamposPaciente uFactC1 uNotaC1.campos) "codSexo".data =
      some (.str "M".data) := by
  have h := C1_copy_overwrites_populated_fields uFactC1 uNotaC1.campos "codSexo".data
    (by decide)
  rw [h]; decide

/-- C1 counterexample: reconcile applied to a reference user CC/1 with
codSexo "M" and a target user CC/1 whose codSexo is already populated with
"F" returns the target with codSexo "M" — the populated target value does
not keep its original value, refuting the claim as stated. -/
theorem C1_counterexample :
    ((copiar_servicios_factura_a_nota factC1 notaC1 Option.none).1.usuarios.get? 0).map
        (fun u => getKey u.campos "codSexo".data) = some (some (.str "M".data)) ∧
    getKey uNotaC1.campos "codSexo".data = some (.str "F".data) ∧
    PyVal.str "M".data ≠ PyVal.str "F".data := by
  exact ⟨by decide, by decide, by decide⟩

/-! ### C2: unmatched records are skipped by the copy but still normalized -/

/-- C2 (amended): a target patient with no reference match under either
index is skipped by the matching and copy step — its position holds exactly
normalizarUsuario of the original record, the only changes being the final
document-wide normalization (tipoUsuario forced to "08", code padding, date
truncation, the consecutivo coercion) — and its (type, number) pair is
listed in the summary's unmatched set. -/
theorem C2_unmatched_only_normalized (factura nota : NotaDoc) (signo : Option Int)
    (i : Nat) (u : Usuario) (hu : nota.usuarios.get? i = some u)
    (hm : buscarUsuarioFactura (construirMapas factura.usuarios)
        ((getKey u.campos "tipoDocumentoIdentificacion".data).getD .none)
        ((getKey u.campos "numDocumentoIdentificacion".data).getD .none) = Option.none) :
    (copiar_servicios_factura_a_nota factura nota signo).1.usuarios.get? i =
      some (normalizarUsuario u) ∧
    ((getKey u.campos "tipoDocumentoIdentificacion".data).getD .none,
      (getKey u.campos "numDocumentoIdentificacion".data).getD .none) ∈
      (copiar_servicios_factura_a_nota factura nota signo).2.usuarios_sin_encontrar := by
  have hstep : procesarUsuarioNota (construirMapas factura.usuarios) signo u =
      (u, .sinEncontrar ((getKey u.campos "tipoDocumentoIdentificacion".data).getD .none)
        ((getKey u.campos "numDocumentoIdentificacion".data).getD .none)) := by
    unfold procesarUsuarioNota
    simp only [hm]
  constructor
  · simp only [copiar_servicios_factura_a_nota, normalizar_codigos_usuarios]
    rw [List.get?_map, List.get?_map, List.get?_map, hu]
    simp [hstep]
  · simp only [copiar_servicios_factura_a_nota]
    apply List.mem_filterMap.mpr
    refine ⟨.sinEncontrar ((getKey u.campos "tipoDocumentoIdentificacion".data).getD .none)
      ((getKey u.campos "numDocumentoIdentificacion".data).getD .none), ?_, rfl⟩
    apply List.get?_mem (n := i)
    rw [List.get?_map, List.get?_map, hu]
    simp [hstep]

/-- C2 witness: the amended statement instantiated on the concrete
unmatched target user CC/9. -/
theorem C2_witness :
    (copiar_servicios_factura_a_nota factC2 notaC2 Option.none).1.usuarios.get? 0 =
      some (normalizarUsuario uNotaC2) ∧
    ((getKey uNotaC2.campos "tipoDocumentoIdentificacion".data).getD .none,
      (getKey uNotaC2.campos "numDocumentoIdentificacion".data).getD .none) ∈
      (copiar_servicios_factura_a_nota factC2 notaC2 Option.none).2.usuarios_sin_encontrar :=
  C2_unmatched_only_normalized factC2 notaC2 Option.none 0 uNotaC2 (by decide) (by decide)

/-- C2 counterexample: the unmatched target user CC/9 enters the summary's
unmatched set, but its tipoUsuario field comes back "08" instead of its
original "01" — reconcile does not return unmatched records with every
field exactly as it was. -/
theorem C2_counterexample :
    ((copiar_servicios_factura_a_nota factC2 notaC2 Option.none).1.usuarios.get? 0).map
        (fun u => getKey u.campos "tipoUsuario".data) = some (some (.str "08".data)) ∧
    getKey uNotaC2.campos "tipoUsuario".data = some (.str "01".data) ∧
    (copiar_servicios_factura_a_nota factC2 notaC2 Option.none).2.usuarios_sin_encontrar =
      [(.str "CC".data, .str "9".data)] ∧
    PyVal.str "08".data ≠ PyVal.str "01".data := by
  exact ⟨by decide, by decide, by decide, by decide⟩

/-! ### C9: tipoUsuario forced to "08" -/

theorem normCodeStep_frame (cs : Dict) (campo k : Str) (h : campo ≠ k) :
    getKey (normCodeStep cs campo) k = getKey cs k := by
  unfold normCodeStep
  split
  · split
    · exact getKey_setKey_ne _ _ _ _ h
    · rfl
  · rfl

theorem foldl_normCode_frame (l : List Str) (k : Str) (hl : ∀ c ∈ l, c ≠ k) (cs : Dict) :
    getKey (l.foldl normCodeStep cs) k = getKey cs k := by
  induction l generalizing cs with
  | nil => rfl
  | cons c rest ih =>
      rw [List.foldl_cons, ih (fun c2 h2 => hl c2 (List.mem_cons_of_mem _ h2))]
      exact normCodeStep_frame cs c k (hl c (List.mem_cons_self _ _))

theorem normFechaStep_frame (cs : Dict) (k : Str) (h : "fechaNacimiento".data ≠ k) :
    getKey (normFechaStep cs) k = getKey cs k := by
  unfold normFechaStep
  split
  · split
    · exact getKey_setKey_ne _ _ _ _ h
    · rfl
  · rfl

theorem normConsecutivoStep_frame (cs : Dict) (k : Str)
    (h : "codZonaTerritorialResidencia".data ≠ k) :
    getKey (normConsecutivoStep cs) k = getKey cs k := by
  unfold normConsecutivoStep
  split
  · split
    · split
      · exact getKey_setKey_ne _ _ _ _ h
      · rfl
    · rfl
  · rfl

theorem normalizarUsuario_tipoUsuario (u : Usuario) :
    getKey (normalizarUsuario u).campos "tipoUsuario".data = some (.str "08".data) := by
  unfold normalizarUsuario
  rw [normConsecutivoStep_frame _ _ (by decide), normFechaStep_frame _ _ (by decide),
    foldl_normCode_frame _ _ (by decide)]
  exact getKey_setKey_self _ _ _

/-- C9 (amended): every patient record returned by reconcile
(copiar_servicios_factura_a_nota) has tipoUsuario "08"; template apply
(aplicar_plantilla_servicios) guarantees the same whenever its early
structural checks pass — the frame is readable and carries the obligatory
columns — while its early-failure paths return the note untouched. -/
theorem C9_tipoUsuario_forced :
    (∀ (factura nota : NotaDoc) (signo : Option Int),
      ∀ u ∈ (copiar_servicios_factura_a_nota factura nota signo).1.usuarios,
        getKey u.campos "tipoUsuario".data = some (.str "08".data)) ∧
    (∀ (nota : NotaDoc) (factura : Option NotaDoc) (df : DF) (updated0 : List Nat),
      (∀ c ∈ COLS_OBLIGATORIAS, c ∈ df.cols) →
      ∀ u ∈ (aplicar_plantilla_servicios nota factura (some df) updated0).1.usuarios,
        getKey u.campos "tipoUsuario".data = some (.str "08".data)) := by
  constructor
  · intro factura nota signo u hu
    simp only [copiar_servicios_factura_a_nota, normalizar_codigos_usuarios] at hu
    rcases List.mem_map.mp hu with ⟨w, _, rfl⟩
    exact normalizarUsuario_tipoUsuario w
  · intro nota factura df updated0 hcols u hu
    have hfind : COLS_OBLIGATORIAS.find? (fun c => !df.cols.contains c) = Option.none := by
      apply List.find?_eq_none.mpr
      intro c hc
      simp only [Bool.not_eq_true]
      simpa using hcols c hc
    simp only [aplicar_plantilla_servicios, hfind, normalizar_codigos_usuarios] at hu
    rcases List.mem_map.mp hu with ⟨w, _, rfl⟩
    exact normalizarUsuario_tipoUsuario w

/-- C9 witness: on the concrete target document and a frame carrying the
obligatory columns, every returned record has tipoUsuario "08". -/
theorem C9_witness :
    getKey (((aplicar_plantilla_servicios notaC2 Option.none
        (some { cols := COLS_OBLIGATORIAS, rows := [] }) []).1.usuarios.headD
          ⟨[], []⟩).campos) "tipoUsuario".data = some (.str "08".data) := by
  have h := C9_tipoUsuario_forced.2 notaC2 Option.none
    { cols := COLS_OBLIGATORIAS, rows := [] } [] (by decide)
  exact h _ (by decide)

/-- C9 counterexample: template apply on a frame missing the obligatory
columns returns early without the final normalization, leaving the target
user's tipoUsuario at its original "01" — the claim as stated fails on
aplicar_plantilla_servicios. -/
theorem C9_counterexample :
    ((aplicar_plantilla_servicios notaC2 Option.none (some { cols := [], rows := [] })
        []).1.usuarios.get? 0).map (fun u => getKey u.campos "tipoUsuario".data) =
      some (some (.str "01".data)) ∧
    PyVal.str "01".data ≠ PyVal.str "08".data := by
  exact ⟨by decide, by decide⟩

/-! ### C10: the TTP payload totals equal the exact sum of valor_nc -/

theorem ratAdd_eq_add (a b : Rat) : ratAdd a b = a + b := by
  rw [ratAdd]
  conv_rhs => rw [← Rat.divInt_self a, ← Rat.divInt_self b]
  rw [Rat.divInt_add_divInt _ _
    (by exact_mod_cast a.den_nz) (by exact_mod_cast b.den_nz)]

theorem buildDetalleTTP_ok (rows : List FilaNC) :
    ∀ (i : Nat) (t s : Rat), listSumDec rows = some s →
      ∃ lines, buildDetalleTTP rows i t = .ok (lines, t + s) := by
  induction rows with
  | nil =>
      intro i t s hs
      simp only [listSumDec, Option.some.injEq] at hs
      exact ⟨[], by simp [buildDetalleTTP, ← hs, pure, Except.pure]⟩
  | cons r rest ih =>
      intro i t s hs
      simp only [listSumDec] at hs
      rcases hd : decOfVal r.valor_nc with _ | d <;> rw [hd] at hs
      · exact absurd hs (by simp)
      rcases hrest : listSumDec rest with _ | s2 <;> rw [hrest] at hs
      · exact absurd hs (by simp)
      simp only [Option.some.injEq] at hs
      rcases ih (i + 1) (ratAdd t d) s2 hrest with ⟨lines, hlines⟩
      refine ⟨detalleLineaTTP i (fmt2 d) (pyStr r.paciente) :: lines, ?_⟩
      simp only [buildDetalleTTP, hd, hlines, Except.bind]
      have : ratAdd t d + s2 = t + s := by
        rw [← hs, ratAdd_eq_add, ratAdd_eq_add]
        ring
      simp [this]

/-- C10: whenever at least one row is marked incluir and every included
valor_nc parses as a Decimal, construir_payload_afacturar_ttp returns a
payload whose valor_nota_credito.total_nota_credito and
valor_nota_credito.valor_total_a_pagar both equal the exact Decimal sum of
the included rows' valor_nc values, rendered with a period and exactly two
fraction digits under half-up rounding (fmt2). -/
theorem C10_totals_equal_sum (filas : List FilaNC)
    (id_nc ref_doc cude_ref doc_obligado fecha hora : Str) (total : Rat)
    (hne : filas.filter (fun r => r.incluir) ≠ [])
    (hsum : listSumDec (filas.filter (fun r => r.incluir)) = some total) :
    ∃ p, construir_payload_afacturar_ttp filas id_nc ref_doc cude_ref doc_obligado
        fecha hora = .ok p ∧
      totalsField p "total_nota_credito".data = some (.str (fmt2 total)) ∧
      totalsField p "valor_total_a_pagar".data = some (.str (fmt2 total)) := by
  rcases buildDetalleTTP_ok (filas.filter (fun r => r.incluir)) 1 0 total hsum with
    ⟨lines, hlines⟩
  have hempty : (filas.filter (fun r => r.incluir)).isEmpty = false := by
    cases h : (filas.filter (fun r => r.incluir)).isEmpty
    · rfl
    · exact absurd (List.isEmpty_iff.mp h) hne
  unfold construir_payload_afacturar_ttp
  simp only [hempty, Bool.false_eq_true, if_false, hlines, Except.bind, zero_add]
  exact ⟨_, rfl, rfl, rfl⟩

/-- C10 witness: two included rows worth 10.5 and 20 give totals "30.50". -/
theorem C10_witness :
    ∃ p, construir_payload_afacturar_ttp
        [{ incluir := true, paciente := .str "123".data, valor_nc := .float (mkRat 21 2) },
         { incluir := false, paciente := .str "9".data, valor_nc := .int 5 },
         { incluir := true, paciente := .str "124".data, valor_nc := .int 20 }]
        "NC1".data "F1".data "CUDE".data "900".data "2024-01-01".data "10:00:00".data =
        .ok p ∧
      totalsField p "total_nota_credito".data = some (.str (fmt2 (mkRat 61 2))) ∧
      totalsField p "valor_total_a_pagar".data = some (.str (fmt2 (mkRat 61 2))) :=
  C10_totals_equal_sum _ _ _ _ _ _ _ (mkRat 61 2) (by decide) (by decide)

/-! ### C8: required header fields -/

/-- A header carrying five of the six required fields — tipo_nota_credito
is missing. -/
def encC8 : Dict :=
  [("id_nota_credito".data, .str "NC1".data), ("fecha".data, .str "2024-01-01".data),
   ("hora".data, .str "10:00:00".data), ("moneda".data, .str "COP".data),
   ("tipo_operacion".data, .str "35".data)]

theorem checkReqEncabezado_first_error (enc : Dict) :
    ∀ (l : List Str) (k : Str),
      l.find? (fun c => encabezadoFaltante enc c) = some k →
      checkReqEncabezado enc l = .error ("encabezado.".data ++ k ++ " es requerido".data) := by
  intro l
  induction l with
  | nil => intro k h; simp [List.find?] at h
  | cons c rest ih =>
      intro k h
      by_cases hc : encabezadoFaltante enc c
      · rw [List.find?_cons_of_pos _ hc] at h
        cases h
        simp [checkReqEncabezado, hc]
      · rw [List.find?_cons_of_neg _ (by simpa using hc)] at h
        simp [checkReqEncabezado, hc, ih k h]

/-- C8: whenever any of the six required header fields is absent or blank
after sanitization, construir_payload_nota_credito fails with the
MissingRequiredField error naming the offending field (the first offending
one in check order), and no payload is returned. -/
theorem C8_missing_required_header
    (documento_obligado : PyVal) (encabezado servicio informacion_documento : Dict)
    (detalle_factura impuestos descuentos : List Dict)
    (valor_nota_credito generalidades : Dict)
    (formas_de_pago : Option (List Dict)) (cambio_de_moneda : Option Dict)
    (retenciones recargos : Option (List Dict)) (cambio_de_moneda_totales : Option Dict)
    (entrega_de_bienes informacion_adquiriente : Option Dict) (k : Str)
    (h : REQ_ENCABEZADO.find? (fun c => encabezadoFaltante encabezado c) = some k) :
    encabezadoFaltante encabezado k = true ∧ k ∈ REQ_ENCABEZADO ∧
    construir_payload_nota_credito documento_obligado encabezado servicio
      informacion_documento detalle_factura impuestos descuentos valor_nota_credito
      generalidades formas_de_pago cambio_de_moneda retenciones recargos
      cambio_de_moneda_totales entrega_de_bienes informacion_adquiriente =
      .error ("encabezado.".data ++ k ++ " es requerido".data) := by
  refine ⟨List.find?_some h, List.mem_of_find?_eq_some h, ?_⟩
  unfold construir_payload_nota_credito
  rw [checkReqEncabezado_first_error _ _ _ h]
  rfl

/-- C8 witness: a header missing tipo_nota_credito fails with the error
referencing encabezado.tipo_nota_credito. -/
theorem C8_witness :
    encabezadoFaltante encC8 "tipo_nota_credito".data = true ∧
    "tipo_nota_credito".data ∈ REQ_ENCABEZADO ∧
    construir_payload_nota_credito (.str "900".data) encC8 [] [] [] [] [] [] []
      Option.none Option.none Option.none Option.none Option.none Option.none
      Option.none =
      .error ("encabezado.".data ++ "tipo_nota_credito".data ++ " es requerido".data) :=
  C8_missing_required_header (.str "900".data) encC8 [] [] [] [] [] [] []
    Option.none Option.none Option.none Option.none Option.none Option.none
    Option.none "tipo_nota_credito".data (by decide)

/-! ### C4: CDATA template surgery -/

/-- A canonical RIPS AttachedDocument template: prefix a, the Description
open tag immediately followed by the CDATA opener, content b, the closing
marker, and suffix c. -/
def plantillaCanonica (a b c : Str) : Str :=
  a ++ ("<cbc:Description>".data ++ ("<![CDATA[".data ++
    (b ++ ("]]></cbc:Description>".data ++ c))))

theorem findSubFromAux_spec (pat s : Str) :
    ∀ (fuel i p : Nat), i ≤ p → p < i + fuel →
      (∀ j, j < p → i ≤ j → ¬isPrefixAt pat s j) → isPrefixAt pat s p = true →
      findSubFromAux pat s i fuel = some p := by
  intro fuel
  induction fuel with
  | zero => intro i p hip hlt _ _; omega
  | succ n ih =>
      intro i p hip hlt hno hp
      unfold findSubFromAux
      by_cases hi : isPrefixAt pat s i = true
      · have hipeq : i = p := by
          by_contra hne
          exact hno i (by omega) (le_refl i) hi
        subst hipeq
        simp [hi]
      · have hlt2 : i < p := by
          rcases Nat.lt_or_ge i p with h | h
          · exact h
          · exact absurd (le_antisymm hip h ▸ hp) hi
        simp only [hi, if_false, Bool.false_eq_true]
        exact ih (i + 1) p (by omega) (by omega)
          (fun j hj hij => hno j hj (by omega)) hp

theorem findSubFrom_spec (pat s : Str) (start p : Nat) (h1 : start ≤ p)
    (h2 : p ≤ s.length) (hno : ∀ j, j < p → start ≤ j → ¬isPrefixAt pat s j)
    (hp : isPrefixAt pat s p = true) : findSubFrom pat s start = some p := by
  unfold findSubFrom
  exact findSubFromAux_spec pat s _ start p h1 (by omega) hno hp

theorem isPrefixOf_append_self (p r : Str) : p.isPrefixOf (p ++ r) = true :=
  List.isPrefixOf_iff_prefix.mpr (List.prefix_append p r)

/-- C4 (amended): on a template decomposed around the first marker pair,
when the CDATA content holds a RipsDocumento and no CreditNote and the new
content holds a RipsDocumento, embedInTemplate replaces exactly the content
strictly between the markers with the new text and leaves every other
character unchanged; and a template lacking the Description tag, the CDATA
opener after it, or the closing marker fails with the corresponding
TemplateFormatError. -/
theorem C4_embed_replaces_only_cdata :
    (∀ a b c new : Str,
      (∀ p, p < a.length →
        ¬isPrefixAt "<cbc:Description".data (plantillaCanonica a b c) p) →
      (∀ p, p < a.length + 17 → a.length ≤ p →
        ¬isPrefixAt "<![CDATA[".data (plantillaCanonica a b c) p) →
      (∀ p, p < a.length + 26 + b.length → a.length + 26 ≤ p →
        ¬isPrefixAt "]]></cbc:Description>".data (plantillaCanonica a b c) p) →
      (containsSub "<CreditNote".data b ||
        containsSub "<CreditNote".data (removeSpaces b)) = false →
      (containsSub "<RipsDocumento".data b ||
        containsSub "<RipsDocumento".data (removeSpaces b)) = true →
      (containsSub "<RipsDocumento".data new ||
        containsSub "<RipsDocumento".data (removeSpaces new)) = true →
      incrustar_rips_en_attacheddocument_bytes (plantillaCanonica a b c) new =
        .ok (plantillaCanonica a new c)) ∧
    (∀ t new : Str, findSubFrom "<cbc:Description".data t 0 = Option.none →
      ∃ e, incrustar_rips_en_attacheddocument_bytes t new = .error e) ∧
    (∀ (t new : Str) (i : Nat), findSubFrom "<cbc:Description".data t 0 = some i →
      findSubFrom "<![CDATA[".data t i = Option.none →
      ∃ e, incrustar_rips_en_attacheddocument_bytes t new = .error e) ∧
    (∀ (t new : Str) (i j : Nat), findSubFrom "<cbc:Description".data t 0 = some i →
      findSubFrom "<![CDATA[".data t i = some j →
      findSubFrom "]]></cbc:Description>".data t (j + "<![CDATA[".data.length) =
        Option.none →
      ∃ e, incrustar_rips_en_attacheddocument_bytes t new = .error e) := by
  refine ⟨?_, ?_, ?_, ?_⟩
  · intro a b c new h1 h2 h3 v1 v2 v3
    have e17 : ("<cbc:Description>".data).length = 17 := by decide
    have e9 : ("<![CDATA[".data).length = 9 := by decide
    have e21 : ("]]></cbc:Description>".data).length = 21 := by decide
    have hT : (plantillaCanonica a b c).length =
        a.length + 26 + b.length + 21 + c.length := by
      simp [plantillaCanonica, List.length_append]
      try omega
    have hfind1 : findSubFrom "<cbc:Description".data (plantillaCanonica a b c) 0 =
        some a.length := by
      apply findSubFrom_spec _ _ _ _ (Nat.zero_le _) (by omega)
        (fun j hj _ => h1 j hj)
      unfold isPrefixAt plantillaCanonica
      rw [List.drop_left' rfl]
      rw [show ("<cbc:Description>".data ++ ("<![CDATA[".data ++
        (b ++ ("]]></cbc:Description>".data ++ c)))) =
        "<cbc:Description".data ++ (">".data ++ ("<![CDATA[".data ++
        (b ++ ("]]></cbc:Description>".data ++ c)))) from by
          simp [← List.append_assoc]]
      exact isPrefixOf_append_self _ _
    have hfind2 : findSubFrom "<![CDATA[".data (plantillaCanonica a b c) a.length =
        some (a.length + 17) := by
      apply findSubFrom_spec _ _ _ _ (by omega) (by omega) (fun j hj hij => h2 j hj hij)
      unfold isPrefixAt
      have : plantillaCanonica a b c = (a ++ "<cbc:Description>".data) ++
          ("<![CDATA[".data ++ (b ++ ("]]></cbc:Description>".data ++ c))) := by
        simp [plantillaCanonica, List.append_assoc]
      rw [this, List.drop_left' (by simp [e17])]
      exact isPrefixOf_append_self _ _
    have hfind3 : findSubFrom "]]></cbc:Description>".data (plantillaCanonica a b c)
        (a.length + 17 + 9) = some (a.length + 26 + b.length) := by
      apply findSubFrom_spec _ _ _ _ (by omega) (by omega)
        (fun j hj hij => h3 j (by omega) (by omega))
      unfold isPrefixAt
      have : plantillaCanonica a b c = ((a ++ "<cbc:Description>".data ++
          "<![CDATA[".data) ++ b) ++ ("]]></cbc:Description>".data ++ c) := by
        simp [plantillaCanonica, List.append_assoc]
      rw [this, List.drop_left' (by simp [List.length_append, e17, e9]; try omega)]
      exact isPrefixOf_append_self _ _
    have hslice : ((plantillaCanonica a b c).drop (a.length + 17 + 9)).take
        (a.length + 26 + b.length - (a.length + 17 + 9)) = b := by
      have : plantillaCanonica a b c = ((a ++ "<cbc:Description>".data ++
          "<![CDATA[".data) ++ (b ++ ("]]></cbc:Description>".data ++ c))) := by
        simp [plantillaCanonica, List.append_assoc]
      rw [this, List.drop_left' (by simp [List.length_append, e17, e9]; try omega)]
      rw [show a.length + 26 + b.length - (a.length + 17 + 9) = b.length from by omega]
      exact List.take_left' rfl
    unfold incrustar_rips_en_attacheddocument_bytes
    simp only [hfind1, hfind2, e9, hfind3, hslice, v1, v2, v3, Bool.not_true,
      Bool.not_false, Bool.false_eq_true, if_false, if_true]
    congr 1
    have htake : (plantillaCanonica a b c).take (a.length + 17 + 9) =
        a ++ "<cbc:Description>".data ++ "<![CDATA[".data := by
      have : plantillaCanonica a b c = ((a ++ "<cbc:Description>".data ++
          "<![CDATA[".data) ++ (b ++ ("]]></cbc:Description>".data ++ c))) := by
        simp [plantillaCanonica, List.append_assoc]
      rw [this, List.take_left' (by simp [List.length_append, e17, e9]; try omega)]
    have hdrop : (plantillaCanonica a b c).drop (a.length + 26 + b.length) =
        "]]></cbc:Description>".data ++ c := by
      have : plantillaCanonica a b c = (((a ++ "<cbc:Description>".data ++
          "<![CDATA[".data) ++ b) ++ ("]]></cbc:Description>".data ++ c)) := by
        simp [plantillaCanonica, List.append_assoc]
      rw [this, List.drop_left' (by simp [List.length_append, e17, e9]; try omega)]
    rw [htake, hdrop]
    simp [plantillaCanonica, List.append_assoc]
  · intro t new h
    unfold incrustar_rips_en_attacheddocument_bytes
    rw [h]
    exact ⟨_, rfl⟩
  · intro t new i h1 h2
    unfold incrustar_rips_en_attacheddocument_bytes
    simp only [h1, h2]
    exact ⟨_, rfl⟩
  · intro t new i j h1 h2 h3
    unfold incrustar_rips_en_attacheddocument_bytes
    simp only [h1, h2, h3]
    exact ⟨_, rfl⟩

/-- C4 witness: the canonical template around the RipsDocumento content OLD
has exactly that content replaced by the new RipsDocumento content. -/
theorem C4_witness :
    incrustar_rips_en_attacheddocument_bytes
      (plantillaCanonica "<a>".data "<RipsDocumento>OLD</RipsDocumento>".data
        "</a>".data)
      "<RipsDocumento>NEW</RipsDocumento>".data =
      .ok (plantillaCanonica "<a>".data "<RipsDocumento>NEW</RipsDocumento>".data
        "</a>".data) :=
  C4_embed_replaces_only_cdata.1 "<a>".data "<RipsDocumento>OLD</RipsDocumento>".data
    "</a>".data "<RipsDocumento>NEW</RipsDocumento>".data
    (by decide) (by decide) (by decide) (by decide) (by decide) (by decide)

/-- C4 counterexample: on the claim's concrete template, whose CDATA
content OLD holds no RipsDocumento, the function does not return the
template with OLD replaced by NEW — it rejects the template. -/
theorem C4_counterexample :
    incrustar_rips_en_attacheddocument_bytes
      "<a><cbc:Description><![CDATA[OLD]]></cbc:Description></a>".data "NEW".data =
      .error "La plantilla XML no parece ser un AttachedDocument RIPS (no se encontró '<RipsDocumento>' dentro del CDATA). Probablemente estás usando un XML que no es RIPS.".data := by
  decide

/-! ### C3: the template round trip and vrServicio -/

/-- The item list of one service group, an absent group reading as empty. -/
def groupList (serv : List (Str × List Item)) (g : Str) : List Item :=
  (getKey serv g).getD []

/-- The vrServicio cell of an item. -/
def vrCell (item : Item) : Option PyVal := getKey item "vrServicio".data

/-- How the apply step may change one item: the vrServicio cell is either
untouched or overwritten with float() of its original value. -/
def itemVrRel (item0 item1 : Item) : Prop :=
  vrCell item1 = vrCell item0 ∨
  ∃ w q, vrCell item0 = some w ∧ pyToFloat w = some q ∧ vrCell item1 = some (.float q)

/-- Group-wise relation: no group shrinks, and every original position holds
an itemVrRel-related item. -/
def servRel (S0 S1 : List (Str × List Item)) : Prop :=
  ∀ g : Str, (groupList S0 g).length ≤ (groupList S1 g).length ∧
    ∀ j item0, (groupList S0 g).get? j = some item0 →
      ∃ item1, (groupList S1 g).get? j = some item1 ∧ itemVrRel item0 item1

/-- Pure extension: no group shrinks and every original position is kept
verbatim (the effect of the structure seeding). -/
def servNice (S0 S1 : List (Str × List Item)) : Prop :=
  ∀ g : Str, (groupList S0 g).length ≤ (groupList S1 g).length ∧
    ∀ j, j < (groupList S0 g).length → (groupList S1 g).get? j = (groupList S0 g).get? j

/-- The loop invariant of the apply fold: as many users as the target
document, and every user's service groups related to the original ones. -/
def InvAplicar (nus : List Usuario) (st : EstadoAplicar) : Prop :=
  st.usuarios.length = nus.length ∧
  ∀ i u0, nus.get? i = some u0 →
    ∃ u1, st.usuarios.get? i = some u1 ∧ servRel u0.servicios u1.servicios

/-- What generar guarantees about one template row: either its
vrServicio_nota cell is blank, or the row addresses a real item of the note
and carries that item's vrServicio value. -/
def RowOk (nota : NotaDoc) (f : Dict) : Prop :=
  (getKey f "vrServicio_nota".data).getD .none = .none ∨
  ∃ (i j : Nat) (g : Str) (w : PyVal),
    pyToInt ((getKey f "idx_usuario".data).getD .none) = some (Int.ofNat i) ∧
    pyStr ((getKey f "tipo_servicio".data).getD .none) = g ∧
    pyToInt ((getKey f "idx_item".data).getD .none) = some (Int.ofNat j) ∧
    vrAt nota i g j = some w ∧
    (getKey f "vrServicio_nota".data).getD .none = w

theorem listGet?_set_self {α : Type} (l : List α) (n : Nat) (a : α) (h : n < l.length) :
    (l.set n a).get? n = some a := by
  simp [List.get?_eq_getElem?, List.getElem?_set, h]

theorem listGet?_set_ne {α : Type} (l : List α) (n m : Nat) (a : α) (h : n ≠ m) :
    (l.set n a).get? m = l.get? m := by
  simp [List.get?_eq_getElem?, List.getElem?_set, h]

theorem listGet?_of_mem_enum {α : Type} (l : List α) (i : Nat) (x : α)
    (h : (i, x) ∈ l.enum) : l.get? i = some x := by
  rw [List.get?_eq_getElem?]
  exact List.mem_enum_iff_getElem?.mp h

theorem listGet?_append_left {α : Type} (l1 l2 : List α) (n : Nat) (h : n < l1.length) :
    (l1 ++ l2).get? n = l1.get? n := by
  simp [List.get?_eq_getElem?, List.getElem?_append_left h]

theorem getKey_append {β : Type} (l1 l2 : List (Str × β)) (k : Str) :
    getKey (l1 ++ l2) k =
      (match getKey l1 k with
       | some v => some v
       | Option.none => getKey l2 k) := by
  induction l1 with
  | nil => simp [getKey]
  | cons p rest ih =>
      rcases p with ⟨k1, v1⟩
      by_cases hk : k1 = k
      · simp [getKey, hk]
      · simp [getKey, hk, ih]

theorem getKey_map_keyed {β : Type} (F : Str → β) (ks : List Str) (k : Str) :
    getKey (ks.map (fun c => (c, F c))) k =
      (if k ∈ ks then some (F k) else Option.none) := by
  induction ks with
  | nil => simp [getKey]
  | cons c rest ih =>
      by_cases hk : c = k
      · subst hk
        simp [getKey, ih]
      · have hk' : (k = c) = False := by
          simp
          intro h
          exact hk h.symm
        simp [getKey, hk, ih, List.mem_cons, hk']

theorem getKey_of_mem_nodup {β : Type} (l : List (Str × β)) (k : Str) (v : β)
    (hmem : (k, v) ∈ l) (hnd : (l.map Prod.fst).Nodup) : getKey l k = some v := by
  induction l with
  | nil => simp at hmem
  | cons p rest ih =>
      rcases p with ⟨k1, v1⟩
      rcases List.mem_cons.mp hmem with heq | htl
      · rw [Prod.mk.injEq] at heq
        rw [heq.1, heq.2]
        simp [getKey]
      · rw [List.map_cons, List.nodup_cons] at hnd
        have hk1 : k1 ≠ k := by
          intro h
          subst h
          exact hnd.1 (List.mem_map.mpr ⟨(k1, v), htl, rfl⟩)
        simp only [getKey, if_neg hk1]
        exact ih htl hnd.2

theorem getKey_foldl_setKey_frame (F : Str → PyVal) (ks : List Str) (k : Str)
    (hk : ∀ c ∈ ks, c ≠ k) :
    ∀ base : Dict, getKey (ks.foldl (fun b c => setKey b c (F c)) base) k = getKey base k := by
  induction ks with
  | nil => intro base; rfl
  | cons c rest ih =>
      intro base
      rw [List.foldl_cons, ih (fun d hd => hk d (by simp [hd])),
        getKey_setKey_ne base c k (F c) (hk c (by simp))]

theorem getKey_foldl_setKey_mem (F : Str → PyVal) (ks : List Str) (k : Str)
    (hk : k ∈ ks) :
    ∀ base : Dict, getKey (ks.foldl (fun b c => setKey b c (F c)) base) k = some (F k) := by
  induction ks with
  | nil => simp at hk
  | cons c rest ih =>
      intro base
      rw [List.foldl_cons]
      by_cases hkr : k ∈ rest
      · exact ih hkr _
      · have hkc : k = c := by
          rcases List.mem_cons.mp hk with h | h
          · exact h
          · exact absurd h hkr
        subst hkc
        rw [getKey_foldl_setKey_frame F rest k (fun d hd => fun he => hkr (he ▸ hd)) _,
          getKey_setKey_self]

theorem servNice_refl (S : List (Str × List Item)) : servNice S S :=
  fun _ => ⟨le_refl _, fun _ _ => rfl⟩

theorem servRel_of_servNice {S0 S1 : List (Str × List Item)} (h : servNice S0 S1) :
    servRel S0 S1 := by
  intro g
  refine ⟨(h g).1, ?_⟩
  intro j item0 hj
  refine ⟨item0, ?_, Or.inl rfl⟩
  rw [(h g).2 j (by
    have := List.get?_eq_some.mp hj
    exact this.choose), hj]

theorem servRel_refl (S : List (Str × List Item)) : servRel S S :=
  servRel_of_servNice (servNice_refl S)

theorem servRel_trans_servNice {S0 S1 S2 : List (Str × List Item)}
    (h01 : servRel S0 S1) (h12 : servNice S1 S2) : servRel S0 S2 := by
  intro g
  refine ⟨le_trans (h01 g).1 (h12 g).1, ?_⟩
  intro j item0 hj
  obtain ⟨item1, h1, hrel⟩ := (h01 g).2 j item0 hj
  refine ⟨item1, ?_, hrel⟩
  rw [(h12 g).2 j ?_, h1]
  have := List.get?_eq_some.mp h1
  exact this.choose

theorem pyGetIdx_ofNat {α : Type} (l : List α) (j : Nat) :
    pyGetIdx l (Int.ofNat j) = l.get? j := by
  unfold pyGetIdx
  rw [if_pos (show (0 : Int) ≤ Int.ofNat j from Int.ofNat_nonneg j)]
  simp

theorem pySetIdx_ofNat {α : Type} (l : List α) (j : Nat) (x : α) :
    pySetIdx l (Int.ofNat j) x = l.set j x := by
  unfold pySetIdx
  rw [if_pos (show (0 : Int) ≤ Int.ofNat j from Int.ofNat_nonneg j)]
  simp

theorem itemAt_eq_groupList (d : NotaDoc) (i : Nat) (g : Str) (j : Nat) :
    itemAt d i g j = (d.usuarios.get? i).bind (fun u => (groupList u.servicios g).get? j) := by
  unfold itemAt groupList
  rcases d.usuarios.get? i with _ | u
  · rfl
  · rcases h : getKey u.servicios g with _ | lst
    · simp [h]
    · simp [h]

theorem vrAt_eq_groupList (d : NotaDoc) (i : Nat) (g : Str) (j : Nat) :
    vrAt d i g j = ((d.usuarios.get? i).bind
      (fun u => (groupList u.servicios g).get? j)).bind vrCell := by
  unfold vrAt vrCell
  rw [itemAt_eq_groupList]

theorem servNice_seed (S0 : List (Str × List Item)) (g : Str) (jI : Int) (ib : Item)
    (h : (((getKey S0 g).getD [] : List Item).length : Int) ≤ jI ∨ getKey S0 g = Option.none) :
    servNice S0 (setKey S0 g
      (pySetIdx ((getKey S0 g).getD [] ++
        List.replicate (jI + 1 - (((getKey S0 g).getD [] : List Item).length : Int)).toNat [])
        jI ib)) := by
  intro g2
  by_cases hg : g2 = g
  · subst hg
    rcases hc : getKey S0 g2 with _ | L
    · refine ⟨?_, ?_⟩
      · simp [groupList, hc]
      · intro j hj
        simp [groupList, hc] at hj
    · have hjI : ((L.length : Nat) : Int) ≤ jI := by
        rcases h with h1 | h2
        · simpa [hc] using h1
        · rw [hc] at h2
          cases h2
      have hj0 : (0 : Int) ≤ jI := le_trans (Int.ofNat_nonneg L.length) hjI
      have hjn : L.length ≤ jI.toNat := by omega
      have hset : ∀ l2 : List Item, pySetIdx l2 jI ib = l2.set jI.toNat ib := by
        intro l2
        unfold pySetIdx
        rw [if_pos hj0]
      refine ⟨?_, ?_⟩
      · rw [groupList, groupList, getKey_setKey_self, hc]
        simp only [Option.getD_some, hset, List.length_set, List.length_append]
        omega
      · intro j hj
        rw [groupList, hc] at hj
        simp only [Option.getD_some] at hj
        rw [groupList, groupList, getKey_setKey_self, hc]
        simp only [Option.getD_some, hset]
        rw [listGet?_set_ne _ _ _ _ (by omega)]
        exact listGet?_append_left _ _ _ hj
  · have hne : g ≠ g2 := fun he => hg he.symm
    rw [groupList, groupList, getKey_setKey_ne _ _ _ _ hne]
    exact ⟨le_refl _, fun _ _ => rfl⟩

theorem InvAplicar_same_usuarios (nus : List Usuario) (st st2 : EstadoAplicar)
    (h : st2.usuarios = st.usuarios) (hinv : InvAplicar nus st) : InvAplicar nus st2 := by
  unfold InvAplicar at hinv ⊢
  rw [h]
  exact hinv

theorem InvAplicar_set_servNice (nus : List Usuario) (st : EstadoAplicar)
    (hinv : InvAplicar nus st) (idx : Nat) (u1 : Usuario) (C : Dict)
    (S1 : List (Str × List Item))
    (hu1 : st.usuarios.get? idx = some u1) (hS : servNice u1.servicios S1)
    (st2 : EstadoAplicar) (h : st2.usuarios = st.usuarios.set idx ⟨C, S1⟩) :
    InvAplicar nus st2 := by
  obtain ⟨hlen, hrel⟩ := hinv
  refine ⟨by rw [h]; simp [hlen], ?_⟩
  intro i u0 hi
  by_cases hidx : i = idx
  · subst hidx
    obtain ⟨u1x, hu1x, hrelx⟩ := hrel i u0 hi
    rw [hu1] at hu1x
    cases hu1x
    refine ⟨⟨C, S1⟩, ?_, ?_⟩
    · rw [h]
      exact listGet?_set_self _ _ _ (by
        have := List.get?_eq_some.mp hu1
        exact this.choose)
    · exact servRel_trans_servNice hrelx hS
  · obtain ⟨u1x, hu1x, hrelx⟩ := hrel i u0 hi
    refine ⟨u1x, ?_, hrelx⟩
    rw [h, listGet?_set_ne _ _ _ _ (fun he => hidx he.symm), hu1x]

theorem aplicarFila_inv (nota : NotaDoc) (b : Bool) (ufac : List Usuario)
    (cols : List Str) (st : EstadoAplicar) (f : Dict) (hrow : RowOk nota f)
    (hinv : InvAplicar nota.usuarios st) :
    InvAplicar nota.usuarios (aplicarFila b ufac cols st f) := by
  unfold aplicarFila
  rcases hpu : pyToInt ((getKey f "idx_usuario".data).getD .none) with _ | idx_u
  all_goals simp only [hpu]
  · exact InvAplicar_same_usuarios _ st _ rfl hinv
  rcases hpi : pyToInt ((getKey f "idx_item".data).getD .none) with _ | idx_item
  all_goals simp only [hpi]
  · exact InvAplicar_same_usuarios _ st _ rfl hinv
  by_cases hna : isNaCell ((getKey f "vrServicio_nota".data).getD .none) = true
  · rw [if_pos hna]
    exact hinv
  rw [if_neg hna]
  by_cases hr : 0 ≤ idx_u ∧ idx_u < (st.usuarios.length : Int)
  swap
  · rw [if_pos (by simp [hr])]
    exact InvAplicar_same_usuarios _ st _ rfl hinv
  rw [if_neg (by simp [hr])]
  -- the row is a genuine row: its vrServicio_nota is not blank
  have hrow2 := hrow
  rcases hrow2 with hblank | ⟨i0, j0, g0, w, hri, hrg, hrj, hrw, hrv⟩
  · exact absurd (by rw [hblank]; rfl) hna
  rw [hpu] at hri
  rw [hpi] at hrj
  cases hri
  cases hrj
  cases hrg
  have htn : ∀ n : Nat, (Int.ofNat n).toNat = n := fun n => rfl
  simp only [htn]
  have hlt : i0 < st.usuarios.length := by
    have h2 := hr.2
    have hco : Int.ofNat i0 = (i0 : Int) := rfl
    omega
  have hu1 : st.usuarios.get? i0 = some (st.usuarios.get ⟨i0, hlt⟩) := List.get?_eq_get hlt
  simp only [hu1, Option.getD_some]
  split
  -- seeding failed: only the demographics are written
  · exact InvAplicar_set_servNice _ st hinv _ _ _ _ hu1 (servNice_refl _) _ rfl
  -- seeding succeeded with result servicios1
  rename_i seededv servicios1 heq
  have hserv : servNice (st.usuarios.get ⟨i0, hlt⟩).servicios servicios1 := by
    split at heq
    · rename_i hex
      cases heq
      exact servNice_refl _
    · rename_i hex
      split at heq
      · cases heq
      split at heq
      · cases heq
      split at heq
      case h_2 => cases heq
      rename_i lista_fac hlf
      split at heq
      swap
      · cases heq
      split at heq
      swap
      · cases heq
      rename_i item_base hib
      injection heq with heq2
      rw [← heq2]
      refine servNice_seed _ _ _ _ ?_
      rcases hl0 : getKey (st.usuarios.get ⟨i0, hlt⟩).servicios
          (pyStr ((getKey f "tipo_servicio".data).getD .none)) with _ | L
      · exact Or.inr rfl
      · refine Or.inl ?_
        rw [hl0] at hex
        simp only [hl0, Option.getD_some]
        simp only [decide_eq_true_eq] at hex
        omega
  -- the guaranteed-structure check and the float parse
  split
  · exact InvAplicar_set_servNice _ st hinv _ _ _ _ hu1 hserv _ rfl
  rename_i hlen2
  split
  · exact InvAplicar_set_servNice _ st hinv _ _ _ _ hu1 hserv _ rfl
  -- the vrServicio write
  rename_i q hq
  simp only [Bool.not_eq_true, decide_eq_false_iff_not, not_not] at hlen2
  obtain ⟨hlen, hrel⟩ := hinv
  refine ⟨by simpa using hlen, ?_⟩
  intro i u0 hi
  by_cases hidx : i = i0
  swap
  · obtain ⟨u1x, hu1x, hrelx⟩ := hrel i u0 hi
    refine ⟨u1x, ?_, hrelx⟩
    rw [listGet?_set_ne _ _ _ _ (fun he => hidx he.symm), hu1x]
  subst hidx
  obtain ⟨u1x, hu1x, hrelx⟩ := hrel _ u0 hi
  rw [hu1] at hu1x
  cases hu1x
  have hrel1 : servRel u0.servicios servicios1 := servRel_trans_servNice hrelx hserv
  refine ⟨_, listGet?_set_self _ _ _ (by simpa using hlt), ?_⟩

  intro g2
  by_cases hg2 : g2 = pyStr ((getKey f "tipo_servicio".data).getD .none)
  swap
  · have hfr : groupList (setKey servicios1
        (pyStr ((getKey f "tipo_servicio".data).getD .none))
        (pySetIdx ((getKey servicios1
            (pyStr ((getKey f "tipo_servicio".data).getD .none))).getD [])
          (Int.ofNat j0)
          (setKey ((pyGetIdx ((getKey servicios1
              (pyStr ((getKey f "tipo_servicio".data).getD .none))).getD [])
              (Int.ofNat j0)).getD [])
            "vrServicio".data (.float q)))) g2 = groupList servicios1 g2 := by
      rw [groupList, groupList, getKey_setKey_ne _ _ _ _ (fun he => hg2 he.symm)]
    rw [hfr]
    exact hrel1 g2
  rw [← hg2] at hlen2 hrw ⊢
  have hset : ∀ (l2 : List Item) (x : Item), pySetIdx l2 (Int.ofNat j0) x = l2.set j0 x := by
    intro l2 x
    rw [pySetIdx_ofNat]
  have hj0lt : j0 < ((getKey servicios1 g2).getD [] : List Item).length := by
    have h2 : (Int.ofNat j0 : Int) <
        (((getKey servicios1 g2).getD [] : List Item).length : Int) := by
      simpa using hlen2
    have hco : Int.ofNat j0 = (j0 : Int) := rfl
    omega
  have hgl : groupList (setKey servicios1 g2
      (pySetIdx ((getKey servicios1 g2).getD []) (Int.ofNat j0)
        (setKey ((pyGetIdx ((getKey servicios1 g2).getD []) (Int.ofNat j0)).getD [])
          "vrServicio".data (.float q)))) g2 =
      ((getKey servicios1 g2).getD [] : List Item).set j0
        (setKey ((pyGetIdx ((getKey servicios1 g2).getD []) (Int.ofNat j0)).getD [])
          "vrServicio".data (.float q)) := by
    rw [groupList, getKey_setKey_self, Option.getD_some, hset]
  rw [hgl]
  refine ⟨?_, ?_⟩
  · rw [List.length_set]
    exact (hrel1 g2).1
  intro j item0 hj
  by_cases hjj : j = j0
  swap
  · rw [listGet?_set_ne _ _ _ _ (fun he => hjj he.symm)]
    exact (hrel1 g2).2 j item0 hj
  subst hjj
  -- the written cell: original value w, new value float q
  rw [vrAt_eq_groupList] at hrw
  rw [hi] at hrw
  simp only [Option.some_bind] at hrw
  rw [hj] at hrw
  simp only [Option.some_bind] at hrw
  refine ⟨_, listGet?_set_self _ _ _ hj0lt, Or.inr ⟨w, q, hrw, ?_, ?_⟩⟩
  · rw [← hrv]
    exact hq
  · unfold vrCell
    rw [getKey_setKey_self]

theorem foldl_aplicarFila_inv (nota : NotaDoc) (b : Bool) (ufac : List Usuario)
    (cols : List Str) :
    ∀ (rows : List Dict) (st : EstadoAplicar),
      (∀ f ∈ rows, RowOk nota f) → InvAplicar nota.usuarios st →
      InvAplicar nota.usuarios (rows.foldl (aplicarFila b ufac cols) st) := by
  intro rows
  induction rows with
  | nil => intro st _ hinv; exact hinv
  | cons f rest ih =>
      intro st hrows hinv
      rw [List.foldl_cons]
      exact ih _ (fun f2 h2 => hrows f2 (by simp [h2]))
        (aplicarFila_inv nota b ufac cols st f (hrows f (by simp)) hinv)

theorem vrAt_normalizar (d : NotaDoc) (i : Nat) (g : Str) (j : Nat) :
    vrAt (normalizar_codigos_usuarios d) i g j = vrAt d i g j := by
  rw [vrAt_eq_groupList, vrAt_eq_groupList]
  unfold normalizar_codigos_usuarios
  simp only [List.get?_map]
  rcases d.usuarios.get? i with _ | u
  · rfl
  · simp [normalizarUsuario]

theorem getKey_cons_self {β : Type} (k : Str) (v : β) (rest : List (Str × β)) :
    getKey ((k, v) :: rest) k = some v := by
  simp [getKey]

theorem getKey_cons_ne {β : Type} (k1 : Str) (v : β) (rest : List (Str × β)) (k : Str)
    (h : k1 ≠ k) : getKey ((k1, v) :: rest) k = getKey rest k := by
  simp [getKey, h]

theorem filaServicio_get_ts (claves : List Str) (ts : Str) (idx : Nat) (item : Item)
    (hts : "tipo_servicio".data ∉ claves) :
    getKey (filaServicio claves ts idx item) "tipo_servicio".data = some (.str ts) := by
  unfold filaServicio
  rw [getKey_setKey_ne _ _ _ _ (by decide),
    getKey_foldl_setKey_frame _ _ _ (fun c hc he => hts (by rw [← he]; exact hc)) _,
    getKey_cons_self]

theorem filaServicio_get_ii (claves : List Str) (ts : Str) (idx : Nat) (item : Item)
    (hii : "idx_item".data ∉ claves) :
    getKey (filaServicio claves ts idx item) "idx_item".data = some (.int idx) := by
  unfold filaServicio
  rw [getKey_setKey_ne _ _ _ _ (by decide),
    getKey_foldl_setKey_frame _ _ _ (fun c hc he => hii (by rw [← he]; exact hc)) _,
    getKey_cons_ne _ _ _ _ (by decide), getKey_cons_self]

theorem filaServicio_get_vr (claves : List Str) (ts : Str) (idx : Nat) (item : Item) :
    getKey (filaServicio claves ts idx item) "vrServicio".data =
      (if "vrServicio".data ∈ claves then some ((getKey item "vrServicio".data).getD .none)
       else Option.none) := by
  unfold filaServicio
  rw [getKey_setKey_ne _ _ _ _ (by decide)]
  by_cases hvr : "vrServicio".data ∈ claves
  · rw [if_pos hvr, getKey_foldl_setKey_mem _ _ _ hvr _]
  · rw [if_neg hvr,
      getKey_foldl_setKey_frame _ _ _ (fun c hc he => hvr (by rw [← he]; exact hc)) _,
      getKey_cons_ne _ _ _ _ (by decide), getKey_cons_ne _ _ _ _ (by decide)]
    rfl

theorem filasUsuarioPlantilla_rowOk (nota : NotaDoc) (claves : List Str) (idx_u : Nat)
    (u_nota : Usuario) (u_fac : Option Usuario)
    (hu : nota.usuarios.get? idx_u = some u_nota)
    (hnd : (u_nota.servicios.map Prod.fst).Nodup)
    (hts : "tipo_servicio".data ∉ claves) (hii : "idx_item".data ∉ claves) :
    ∀ f ∈ filasUsuarioPlantilla claves idx_u u_nota u_fac, RowOk nota f := by
  intro f hf
  simp only [filasUsuarioPlantilla] at hf
  split at hf
  case isFalse =>
    obtain ⟨f0, hf0, rfl⟩ := List.mem_map.mp hf
    refine Or.inl ?_
    unfold agregarCamposPaciente
    rw [getKey_foldl_setKey_frame _ _ _ (by decide)]
    rw [getKey_cons_ne _ _ _ _ (by decide), getKey_cons_ne _ _ _ _ (by decide),
      getKey_cons_ne _ _ _ _ (by decide), getKey_cons_ne _ _ _ _ (by decide),
      getKey_cons_self]
    rfl
  case isTrue =>
    obtain ⟨f0, hf0, rfl⟩ := List.mem_map.mp hf
    simp only [desglosar_servicios_usuario] at hf0
    obtain ⟨grp, hgrp, hf0b⟩ := List.mem_flatMap.mp hf0
    obtain ⟨p, hp, rfl⟩ := List.mem_map.mp hf0b
    have hgk : getKey u_nota.servicios grp.1 = some grp.2 :=
      getKey_of_mem_nodup _ _ _ (by rw [show (grp.1, grp.2) = grp from rfl]; exact hgrp) hnd
    have hitem : grp.2.get? p.1 = some p.2 :=
      listGet?_of_mem_enum _ _ _ (by rw [show (p.1, p.2) = p from rfl]; exact hp)
    by_cases hvr : "vrServicio".data ∈ claves
    case neg =>
      refine Or.inl ?_
      unfold agregarCamposPaciente
      rw [getKey_foldl_setKey_frame _ _ _ (by decide)]
      rw [getKey_cons_ne _ _ _ _ (by decide), getKey_cons_ne _ _ _ _ (by decide),
        getKey_cons_ne _ _ _ _ (by decide), getKey_cons_ne _ _ _ _ (by decide),
        getKey_cons_self]
      simp only [Option.getD_some]
      rw [filaServicio_get_vr, if_neg hvr]
      rfl
    case pos =>
      rcases hw0 : getKey p.2 "vrServicio".data with _ | w0
      · refine Or.inl ?_
        unfold agregarCamposPaciente
        rw [getKey_foldl_setKey_frame _ _ _ (by decide)]
        rw [getKey_cons_ne _ _ _ _ (by decide), getKey_cons_ne _ _ _ _ (by decide),
          getKey_cons_ne _ _ _ _ (by decide), getKey_cons_ne _ _ _ _ (by decide),
          getKey_cons_self]
        simp only [Option.getD_some]
        rw [filaServicio_get_vr, if_pos hvr, hw0]
        rfl
      · refine Or.inr ⟨idx_u, p.1, grp.1, w0, ?_, ?_, ?_, ?_, ?_⟩
        · unfold agregarCamposPaciente
          rw [getKey_foldl_setKey_frame _ _ _ (by decide), getKey_cons_self]
          rfl
        · unfold agregarCamposPaciente
          rw [getKey_foldl_setKey_frame _ _ _ (by decide),
            getKey_cons_ne _ _ _ _ (by decide), getKey_cons_self]
          simp only [Option.getD_some]
          rw [filaServicio_get_ts _ _ _ _ hts]
          rfl
        · unfold agregarCamposPaciente
          rw [getKey_foldl_setKey_frame _ _ _ (by decide),
            getKey_cons_ne _ _ _ _ (by decide), getKey_cons_ne _ _ _ _ (by decide),
            getKey_cons_self]
          simp only [Option.getD_some]
          rw [filaServicio_get_ii _ _ _ _ hii]
          rfl
        · rw [vrAt_eq_groupList, hu]
          simp only [Option.some_bind]
          rw [groupList, hgk]
          simp only [Option.getD_some]
          rw [hitem]
          simp only [Option.some_bind]
          exact hw0
        · unfold agregarCamposPaciente
          rw [getKey_foldl_setKey_frame _ _ _ (by decide)]
          rw [getKey_cons_ne _ _ _ _ (by decide), getKey_cons_ne _ _ _ _ (by decide),
            getKey_cons_ne _ _ _ _ (by decide), getKey_cons_ne _ _ _ _ (by decide),
            getKey_cons_self]
          simp only [Option.getD_some]
          rw [filaServicio_get_vr, if_pos hvr, hw0]
          rfl

theorem notaDoc_update_usuarios (d : NotaDoc) (us : List Usuario) :
    ({ d with usuarios := us } : NotaDoc).usuarios = us := rfl

theorem generar_rows_ok (nota : NotaDoc) (factura : Option NotaDoc)
    (hnd : ∀ u ∈ nota.usuarios, (u.servicios.map Prod.fst).Nodup)
    (hts : "tipo_servicio".data ∉ obtener_claves_servicio_esperadas factura (some nota))
    (hii : "idx_item".data ∉ obtener_claves_servicio_esperadas factura (some nota)) :
    ∀ f ∈ (generar_plantilla_servicios nota factura).rows, RowOk nota f := by
  intro f hf
  simp only [generar_plantilla_servicios] at hf
  obtain ⟨idx_u, hidx, hf2⟩ := List.mem_flatMap.mp hf
  rcases hget : nota.usuarios.get? idx_u with _ | u_nota
  · rw [hget] at hf2
    simp at hf2
  · simp only [hget] at hf2
    exact filasUsuarioPlantilla_rowOk nota _ idx_u u_nota _ hget
      (hnd u_nota (List.get?_mem hget)) hts hii f hf2

/-- C3 (amended): after the flatten-then-apply round trip, every vrServicio
value of the note is either exactly its original value or the float() image
of that original value - numerically equal, but serialized with a trailing
".0" when the original was an int.  The group names of each user are assumed
distinct, as Python dicts force, and no service item may use the reserved
column names "tipo_servicio" or "idx_item" as field names: the expected-key
loop writes fila[clave] = valor over the seeded bindings, so such a field
redirects the row to another group or index and the write lands on a
different item. -/
theorem C3_roundtrip_vrServicio (nota : NotaDoc) (factura : Option NotaDoc)
    (hnd : ∀ u ∈ nota.usuarios, (u.servicios.map Prod.fst).Nodup)
    (hts : "tipo_servicio".data ∉ obtener_claves_servicio_esperadas factura (some nota))
    (hii : "idx_item".data ∉ obtener_claves_servicio_esperadas factura (some nota))
    (i : Nat) (g : Str) (j : Nat) (w : PyVal) (hw : vrAt nota i g j = some w) :
    vrAt (roundTripPlantilla nota factura) i g j = some w ∨
    ∃ q, pyToFloat w = some q ∧
      vrAt (roundTripPlantilla nota factura) i g j = some (.float q) := by
  have hcols : (generar_plantilla_servicios nota factura).cols =
      (if (generar_plantilla_servicios nota factura).rows.isEmpty then []
       else PLANTILLA_COLS) := rfl
  by_cases hempty : (generar_plantilla_servicios nota factura).rows.isEmpty = true
  · have hfind : COLS_OBLIGATORIAS.find?
        (fun c => !((generar_plantilla_servicios nota factura).cols.contains c))
        = some "idx_usuario".data := by
      rw [hcols, if_pos hempty]
      rfl
    unfold roundTripPlantilla aplicar_plantilla_servicios
    simp only [hfind]
    exact Or.inl hw
  · have hfind : COLS_OBLIGATORIAS.find?
        (fun c => !((generar_plantilla_servicios nota factura).cols.contains c))
        = Option.none := by
      rw [hcols, if_neg hempty]
      rfl
    have hinvF : ∀ (b : Bool) (ufac : List Usuario) (cols : List Str),
        InvAplicar nota.usuarios
          ((generar_plantilla_servicios nota factura).rows.foldl (aplicarFila b ufac cols)
            { usuarios := nota.usuarios, errores := [], updated := [] }) :=
      fun b ufac cols => foldl_aplicarFila_inv nota b ufac cols _ _
        (generar_rows_ok nota factura hnd hts hii)
        ⟨rfl, fun i2 u0 hi2 => ⟨u0, hi2, servRel_refl _⟩⟩
    rw [vrAt_eq_groupList] at hw
    rcases hgu : nota.usuarios.get? i with _ | u0
    · rw [hgu] at hw
      simp at hw
    rw [hgu] at hw
    simp only [Option.some_bind] at hw
    rcases hgj : (groupList u0.servicios g).get? j with _ | item0
    · rw [hgj] at hw
      simp at hw
    rw [hgj] at hw
    simp only [Option.some_bind] at hw
    unfold roundTripPlantilla aplicar_plantilla_servicios
    simp only [hfind]
    obtain ⟨u1, hu1, hsr⟩ := (hinvF _ _ _).2 i u0 hgu
    obtain ⟨item1, hj1, hrel⟩ := (hsr g).2 j item0 hgj
    rw [vrAt_normalizar, vrAt_eq_groupList, notaDoc_update_usuarios]
    rcases hrel with hL | ⟨wx, q, hwx, hq, hv1⟩
    · refine Or.inl ?_
      rw [hu1]
      simp only [Option.some_bind]
      rw [hj1]
      simp only [Option.some_bind]
      rw [hL]
      exact hw
    · rw [hwx] at hw
      injection hw with hw2
      subst hw2
      refine Or.inr ⟨q, hq, ?_⟩
      rw [hu1]
      simp only [Option.some_bind]
      rw [hj1]
      simp only [Option.some_bind]
      exact hv1

/-- C3 counterexample: a vrServicio stored as the int 1 comes back from the
round trip as the float 1.0, whose JSON serialization "1.0" differs from the
original "1"; and on a document whose item uses the reserved column names as
field names, the expected-key overwrite redirects the row, so
procedimientos[0] comes back as 5.0 - a value byte-different from, and not
even numerically equal to, its original 7. -/
theorem C3_counterexample :
    (vrAt notaC3 0 "consultas".data 0 = some (.int 1) ∧
     vrAt (roundTripPlantilla notaC3 Option.none) 0 "consultas".data 0 = some (.float 1) ∧
     jsonNum (.int 1) ≠ jsonNum (.float 1)) ∧
    (vrAt notaC3b 0 "procedimientos".data 0 = some (.int 7) ∧
     vrAt (roundTripPlantilla notaC3b Option.none) 0 "procedimientos".data 0
       = some (.float 5)) := by
  refine ⟨⟨by decide, by decide, by decide⟩, by decide, by decide⟩

/-- C3 witness: the amended theorem applied to the same concrete document. -/
theorem C3_witness :
    vrAt (roundTripPlantilla notaC3 Option.none) 0 "consultas".data 0 = some (.int 1) ∨
    ∃ q, pyToFloat (.int 1) = some q ∧
      vrAt (roundTripPlantilla notaC3 Option.none) 0 "consultas".data 0 = some (.float q) :=
  C3_roundtrip_vrServicio notaC3 Option.none (by decide) (by decide) (by decide)
    0 "consultas".data 0 (.int 1) (by decide)

/-! ### C6: idempotence of _sanitize_text -/

/-- No two adjacent characters both match p. -/
def noTwoAdj (p : Char → Bool) : Str → Bool
  | a :: b :: rest => (!(p a && p b)) && noTwoAdj p (b :: rest)
  | _ => true

theorem noTwoAdj_nil (p : Char → Bool) : noTwoAdj p [] = true := rfl

theorem noTwoAdj_singleton (p : Char → Bool) (a : Char) : noTwoAdj p [a] = true := rfl

theorem noTwoAdj_cons_head (p : Char → Bool) (a : Char) (l : Str) :
    noTwoAdj p (a :: l) =
      ((match l.head? with | some b => !(p a && p b) | none => true) && noTwoAdj p l) := by
  cases l <;> simp [noTwoAdj]

theorem noTwoAdj_tail (p : Char → Bool) (a : Char) (l : Str)
    (h : noTwoAdj p (a :: l) = true) : noTwoAdj p l = true := by
  rw [noTwoAdj_cons_head] at h
  exact (Bool.and_eq_true .. ▸ h).2

theorem noTwoAdj_cons_of_false (p : Char → Bool) (a : Char) (l : Str)
    (ha : p a = false) (h : noTwoAdj p l = true) : noTwoAdj p (a :: l) = true := by
  rw [noTwoAdj_cons_head, ha]
  cases l <;> simp [h]

theorem emitRun_nil (k : Nat) : emitRun k [] = [] := by
  simp [emitRun]

theorem emitRun_short (pending : Str) (h : pending.length ≤ 1) :
    emitRun 2 pending = pending := by
  unfold emitRun
  rw [if_neg]
  omega

theorem emitRun_members (k : Nat) (pending : Str) (c : Char)
    (h : c ∈ emitRun k pending) : c = ' ' ∨ c ∈ pending := by
  unfold emitRun at h
  split at h
  · simp at h
    exact Or.inl h
  · exact Or.inr h

theorem noTwoAdj_emitRun (p : Char → Bool) (pending : Str) :
    noTwoAdj p (emitRun 2 pending) = true := by
  unfold emitRun
  split
  · rfl
  · rename_i h
    rcases pending with _ | ⟨a, _ | ⟨b, rest⟩⟩
    · rfl
    · rfl
    · exfalso
      simp [List.length_cons] at h

theorem noTwoAdj_append_cons (p : Char → Bool) (xs ys : Str) (c : Char)
    (hxs : noTwoAdj p xs = true) (hc : p c = false)
    (hys : noTwoAdj p (c :: ys) = true) : noTwoAdj p (xs ++ c :: ys) = true := by
  induction xs with
  | nil => exact hys
  | cons a xs ih =>
      have hx' : noTwoAdj p (xs ++ c :: ys) = true := ih (noTwoAdj_tail p a xs hxs)
      rw [List.cons_append, noTwoAdj_cons_head, hx', Bool.and_true]
      rcases xs with _ | ⟨b, xs'⟩
      · simp [hc]
      · rw [noTwoAdj_cons_head] at hxs
        have := (Bool.and_eq_true .. ▸ hxs).1
        simpa using this

theorem replaceRunsAux_no_match (p : Char → Bool) (k : Nat) :
    ∀ s : Str, (∀ c ∈ s, p c = false) → replaceRunsAux p k [] s = s := by
  intro s
  induction s with
  | nil => intro _; simp [replaceRunsAux, emitRun_nil]
  | cons c rest ih =>
      intro h
      have hc : p c = false := h c (by simp)
      have ih' := ih (fun d hd => h d (by simp [hd]))
      simp only [replaceRunsAux, hc, Bool.false_eq_true, if_false, emitRun_nil,
        List.nil_append, ih']

theorem mem_replaceRunsAux (p : Char → Bool) (k : Nat) :
    ∀ (s pending : Str) (c' : Char), c' ∈ replaceRunsAux p k pending s →
      c' = ' ' ∨ c' ∈ pending ∨ c' ∈ s := by
  intro s
  induction s with
  | nil =>
      intro pending c' h
      rcases emitRun_members k pending c' h with h1 | h2
      · exact Or.inl h1
      · exact Or.inr (Or.inl h2)
  | cons c rest ih =>
      intro pending c' h
      by_cases hc : p c = true
      · simp only [replaceRunsAux, hc, if_true] at h
        rcases ih (pending ++ [c]) c' h with h1 | h2 | h3
        · exact Or.inl h1
        · rcases List.mem_append.mp h2 with h4 | h5
          · exact Or.inr (Or.inl h4)
          · simp at h5
            exact Or.inr (Or.inr (by simp [h5]))
        · exact Or.inr (Or.inr (by simp [h3]))
      · simp only [replaceRunsAux, hc, Bool.false_eq_true, if_false] at h
        rcases List.mem_append.mp h with h1 | h2
        · rcases emitRun_members k pending c' h1 with h3 | h4
          · exact Or.inl h3
          · exact Or.inr (Or.inl h4)
        · rcases List.mem_cons.mp h2 with h3 | h4
          · exact Or.inr (Or.inr (by simp [h3]))
          · rcases ih [] c' h4 with h5 | h6 | h7
            · exact Or.inl h5
            · simp at h6
            · exact Or.inr (Or.inr (by simp [h7]))

theorem mem_replaceRunsAux_one (p : Char → Bool) :
    ∀ (s pending : Str) (c' : Char), c' ∈ replaceRunsAux p 1 pending s →
      c' = ' ' ∨ p c' = false := by
  intro s
  induction s with
  | nil =>
      intro pending c' h
      unfold replaceRunsAux emitRun at h
      split at h
      · simp at h
        exact Or.inl h
      · rename_i hcond
        have : pending = [] := by
          rcases pending with _ | _
          · rfl
          · exfalso
            simp [List.length_cons] at hcond
        subst this
        simp at h
  | cons c rest ih =>
      intro pending c' h
      by_cases hc : p c = true
      · simp only [replaceRunsAux, hc, if_true] at h
        exact ih (pending ++ [c]) c' h
      · simp only [replaceRunsAux, hc, Bool.false_eq_true, if_false] at h
        rcases List.mem_append.mp h with h1 | h2
        · unfold emitRun at h1
          split at h1
          · simp at h1
            exact Or.inl h1
          · rename_i hcond
            have : pending = [] := by
              rcases pending with _ | _
              · rfl
              · exfalso
                simp [List.length_cons] at hcond
            subst this
            simp at h1
        · rcases List.mem_cons.mp h2 with h3 | h4
          · subst h3
            exact Or.inr (by simpa using hc)
          · exact ih [] c' h4

theorem noTwoAdj_replaceRunsAux (p : Char → Bool) :
    ∀ (s pending : Str), noTwoAdj p (replaceRunsAux p 2 pending s) = true := by
  intro s
  induction s with
  | nil => intro pending; exact noTwoAdj_emitRun p pending
  | cons c rest ih =>
      intro pending
      by_cases hc : p c = true
      · simp only [replaceRunsAux, hc, if_true]
        exact ih (pending ++ [c])
      · have hc' : p c = false := by simpa using hc
        simp only [replaceRunsAux, hc', Bool.false_eq_true, if_false]
        exact noTwoAdj_append_cons p _ _ c (noTwoAdj_emitRun p pending) hc'
          (noTwoAdj_cons_of_false p c _ hc' (ih []))

theorem replaceRunsAux_id_of_noTwoAdj (p : Char → Bool) :
    ∀ s : Str, noTwoAdj p s = true →
      ∀ pending : Str, pending.length ≤ 1 →
        (∀ c ∈ s.head?, p c = true → pending = []) →
        replaceRunsAux p 2 pending s = pending ++ s := by
  intro s
  induction s with
  | nil =>
      intro _ pending hlen _
      simp only [replaceRunsAux, emitRun_short pending hlen, List.append_nil]
  | cons c rest ih =>
      intro h pending hlen hcond
      by_cases hc : p c = true
      · have hpe : pending = [] := hcond c (by simp) hc
        subst hpe
        simp only [replaceRunsAux, hc, if_true, List.nil_append]
        have hrest : replaceRunsAux p 2 [c] rest = [c] ++ rest := by
          refine ih (noTwoAdj_tail p c rest h) [c] (by simp) ?_
          intro b hb hpb
          exfalso
          rcases rest with _ | ⟨b', rest'⟩
          · simp at hb
          · simp at hb
            subst hb
            rw [noTwoAdj_cons_head] at h
            have := (Bool.and_eq_true .. ▸ h).1
            simp [hc, hpb] at this
        rw [hrest]
        rfl
      · have hc' : p c = false := by simpa using hc
        simp only [replaceRunsAux, hc', Bool.false_eq_true, if_false,
          emitRun_short pending hlen]
        have hrest : replaceRunsAux p 2 [] rest = [] ++ rest :=
          ih (noTwoAdj_tail p c rest h) [] (by simp) (by intro b _ _; rfl)
        rw [hrest]
        simp

theorem replaceRuns_id_of_noTwoAdj (p : Char → Bool) (s : Str)
    (h : noTwoAdj p s = true) : replaceRuns p 2 s = s := by
  unfold replaceRuns
  rw [replaceRunsAux_id_of_noTwoAdj p s h [] (by simp) (by intro b _ _; rfl)]
  rfl

theorem replaceRunsAux_all_match (p : Char → Bool) :
    ∀ (r pending : Str), (∀ c ∈ r, p c = true) →
      replaceRunsAux p 2 pending r = emitRun 2 (pending ++ r) := by
  intro r
  induction r with
  | nil => intro pending _; simp [replaceRunsAux]
  | cons c rest ih =>
      intro pending h
      have hc : p c = true := h c (by simp)
      simp only [replaceRunsAux, hc, if_true]
      rw [ih (pending ++ [c]) (fun d hd => h d (by simp [hd]))]
      simp

theorem emitRun_replicate_space (k : Nat) (hk : 1 ≤ k) :
    emitRun 2 (List.replicate k ' ') = [' '] := by
  unfold emitRun
  rcases Nat.lt_or_ge k 2 with h2 | h2
  · have hk1 : k = 1 := by omega
    subst hk1
    simp
  · rw [if_pos]
    simp
    omega

theorem replaceRunsAux_trailing_run (p : Char → Bool) (hsp : p ' ' = true) :
    ∀ t : Str, noTwoAdj p t = true →
      (∀ c ∈ t.getLast?, p c = false) →
      ∀ k : Nat, 1 ≤ k →
        replaceRunsAux p 2 [] (t ++ List.replicate k ' ') = t ++ [' '] := by
  intro t
  induction t with
  | nil =>
      intro _ _ k hk
      rw [List.nil_append, replaceRunsAux_all_match p _ [] (by
        intro c hc
        rw [List.eq_of_mem_replicate hc]
        exact hsp)]
      rw [List.nil_append, emitRun_replicate_space k hk]
      rfl
  | cons c t' ih =>
      intro h hlast k hk
      by_cases hc : p c = true
      · rcases t' with _ | ⟨d, t''⟩
        · exfalso
          have := hlast c (by simp)
          rw [this] at hc
          simp at hc
        · have hd : p d = false := by
            rw [noTwoAdj_cons_head] at h
            have := (Bool.and_eq_true .. ▸ h).1
            simp only [List.head?_cons] at this
            cases hpd : p d
            · rfl
            · rw [hc, hpd] at this
              simp at this
          have hIH : replaceRunsAux p 2 [] ((d :: t'') ++ List.replicate k ' ')
              = (d :: t'') ++ [' '] := by
            refine ih (noTwoAdj_tail p c _ h) ?_ k hk
            intro b hb
            exact hlast b (by rw [List.getLast?_cons_cons]; exact hb)
          rw [List.cons_append] at hIH
          simp only [replaceRunsAux, hd, Bool.false_eq_true, if_false, emitRun_nil,
            List.nil_append] at hIH
          have hkey : replaceRunsAux p 2 [] (t'' ++ List.replicate k ' ')
              = t'' ++ [' '] := by
            have := List.cons.injEq d _ d _ ▸ hIH
            exact (List.cons.inj hIH).2
          show replaceRunsAux p 2 [] (c :: d :: (t'' ++ List.replicate k ' '))
              = c :: d :: (t'' ++ [' '])
          simp only [replaceRunsAux, hc, if_true, hd, Bool.false_eq_true, if_false]
          rw [hkey]
          rfl
      · have hc' : p c = false := by simpa using hc
        have hIH : replaceRunsAux p 2 [] (t' ++ List.replicate k ' ')
            = t' ++ [' '] := by
          refine ih (noTwoAdj_tail p c _ h) ?_ k hk
          intro b hb
          refine hlast b ?_
          rcases t' with _ | ⟨d, t''⟩
          · simp at hb
          · rw [List.getLast?_cons_cons]
            exact hb
        show replaceRunsAux p 2 [] (c :: (t' ++ List.replicate k ' '))
            = c :: (t' ++ [' '])
        simp only [replaceRunsAux, hc', Bool.false_eq_true, if_false, emitRun_nil,
          List.nil_append]
        rw [hIH]

theorem dropWhile_head_not (q : Char → Bool) :
    ∀ (l : Str) (c : Char) (rest : Str),
      l.dropWhile q = c :: rest → q c = false := by
  intro l
  induction l with
  | nil => intro c rest h; simp at h
  | cons a l' ih =>
      intro c rest h
      by_cases ha : q a = true
      · rw [List.dropWhile_cons_of_pos ha] at h
        exact ih c rest h
      · have ha' : q a = false := by simpa using ha
        rw [List.dropWhile_cons_of_neg (by simp [ha'])] at h
        cases h
        exact ha'

theorem dropWhile_eq_self_of_head (q : Char → Bool) (l : Str)
    (h : ∀ c ∈ l.head?, q c = false) : l.dropWhile q = l := by
  rcases l with _ | ⟨a, l'⟩
  · rfl
  · exact List.dropWhile_cons_of_neg (by simp [h a (by simp)])

theorem stripWs_decomp (s : Str) :
    ∃ u v : Str, s = u ++ stripWs s ++ v := by
  unfold stripWs
  obtain ⟨u, hu⟩ := List.dropWhile_suffix (l := s) isPyWs
  obtain ⟨w, hw⟩ := List.dropWhile_suffix (l := (s.dropWhile isPyWs).reverse) isPyWs
  refine ⟨u, w.reverse, ?_⟩
  have hd : s.dropWhile isPyWs
      = ((s.dropWhile isPyWs).reverse.dropWhile isPyWs).reverse ++ w.reverse := by
    calc s.dropWhile isPyWs
        = (s.dropWhile isPyWs).reverse.reverse := by rw [List.reverse_reverse]
      _ = (w ++ (s.dropWhile isPyWs).reverse.dropWhile isPyWs).reverse := by rw [hw]
      _ = ((s.dropWhile isPyWs).reverse.dropWhile isPyWs).reverse ++ w.reverse := by
            rw [List.reverse_append]
  calc s = u ++ s.dropWhile isPyWs := hu.symm
    _ = u ++ (((s.dropWhile isPyWs).reverse.dropWhile isPyWs).reverse ++ w.reverse) := by
          rw [← hd]
    _ = u ++ ((s.dropWhile isPyWs).reverse.dropWhile isPyWs).reverse ++ w.reverse := by
          rw [List.append_assoc]

theorem stripWs_getLast? (s : Str) :
    ∀ c ∈ (stripWs s).getLast?, isPyWs c = false := by
  intro c hc
  unfold stripWs at hc
  rw [List.getLast?_reverse] at hc
  rcases he : List.dropWhile isPyWs (List.dropWhile isPyWs s).reverse with _ | ⟨a, rest⟩
  · rw [he] at hc
    simp at hc
  · rw [he] at hc
    simp only [List.head?_cons, Option.mem_def, Option.some.injEq] at hc
    exact hc ▸ dropWhile_head_not isPyWs _ a rest he

theorem stripWs_head? (s : Str) :
    ∀ c ∈ (stripWs s).head?, isPyWs c = false := by
  intro c hc
  unfold stripWs at hc
  obtain ⟨w, hw⟩ := List.dropWhile_suffix (l := (s.dropWhile isPyWs).reverse) isPyWs
  have hchain : s.dropWhile isPyWs
      = ((s.dropWhile isPyWs).reverse.dropWhile isPyWs).reverse ++ w.reverse := by
    calc s.dropWhile isPyWs
        = (s.dropWhile isPyWs).reverse.reverse := by rw [List.reverse_reverse]
      _ = (w ++ (s.dropWhile isPyWs).reverse.dropWhile isPyWs).reverse := by rw [hw]
      _ = _ := by rw [List.reverse_append]
  rcases he : ((s.dropWhile isPyWs).reverse.dropWhile isPyWs).reverse with _ | ⟨a, rest⟩
  · rw [he] at hc
    simp at hc
  · rw [he] at hc
    simp only [List.head?_cons, Option.mem_def, Option.some.injEq] at hc
    rw [he] at hchain
    have hpref : s.dropWhile isPyWs = a :: (rest ++ w.reverse) := by
      rw [hchain]
      simp
    exact hc ▸ dropWhile_head_not isPyWs s a _ hpref

theorem stripWs_eq_self (l : Str)
    (h1 : ∀ c ∈ l.head?, isPyWs c = false)
    (h2 : ∀ c ∈ l.getLast?, isPyWs c = false) : stripWs l = l := by
  unfold stripWs
  rw [dropWhile_eq_self_of_head isPyWs l h1]
  rw [dropWhile_eq_self_of_head isPyWs l.reverse (by
    intro c hc
    rw [List.head?_reverse] at hc
    exact h2 c hc)]
  exact List.reverse_reverse l

theorem stripWs_append_single_space (t : Str)
    (h1 : ∀ c ∈ t.head?, isPyWs c = false)
    (h2 : ∀ c ∈ t.getLast?, isPyWs c = false) :
    stripWs (t ++ [' ']) = t := by
  rcases t with _ | ⟨a, t'⟩
  · decide
  · unfold stripWs
    have hstep1 : (a :: t' ++ [' ']).dropWhile isPyWs = a :: t' ++ [' '] := by
      refine dropWhile_eq_self_of_head isPyWs _ ?_
      intro c hc
      simp only [List.cons_append, List.head?_cons, Option.mem_def,
        Option.some.injEq] at hc
      exact hc ▸ h1 a (by simp)
    rw [hstep1, List.reverse_append, List.reverse_singleton, List.singleton_append]
    rw [List.dropWhile_cons_of_pos (by decide)]
    rw [dropWhile_eq_self_of_head isPyWs _ (by
      intro c hc
      rw [List.head?_reverse] at hc
      exact h2 c hc)]
    exact List.reverse_reverse _

theorem mem_stripWs (s : Str) (c : Char) (h : c ∈ stripWs s) : c ∈ s := by
  obtain ⟨u, v, huv⟩ := stripWs_decomp s
  rw [huv]
  simp only [List.mem_append]
  exact Or.inl (Or.inr h)

theorem noTwoAdj_dropLeft (p : Char → Bool) :
    ∀ xs ys : Str, noTwoAdj p (xs ++ ys) = true → noTwoAdj p ys = true := by
  intro xs
  induction xs with
  | nil => intro ys h; exact h
  | cons a xs ih =>
      intro ys h
      exact ih ys (noTwoAdj_tail p a _ h)

theorem noTwoAdj_takeLeft (p : Char → Bool) :
    ∀ xs ys : Str, noTwoAdj p (xs ++ ys) = true → noTwoAdj p xs = true := by
  intro xs
  induction xs with
  | nil => intro _ _; rfl
  | cons a xs ih =>
      intro ys h
      have hxs : noTwoAdj p xs = true := ih ys (noTwoAdj_tail p a _ h)
      rw [noTwoAdj_cons_head, hxs, Bool.and_true]
      rcases xs with _ | ⟨b, xs'⟩
      · rfl
      · rw [List.cons_append, noTwoAdj_cons_head] at h
        have := (Bool.and_eq_true .. ▸ h).1
        simpa using this

theorem noTwoAdj_stripWs (p : Char → Bool) (s : Str)
    (h : noTwoAdj p s = true) : noTwoAdj p (stripWs s) = true := by
  obtain ⟨u, v, huv⟩ := stripWs_decomp s
  rw [huv] at h
  exact noTwoAdj_takeLeft p _ v (noTwoAdj_dropLeft p u _ (by rwa [← List.append_assoc]))

theorem replaceRuns_no_match (p : Char → Bool) (k : Nat) (s : Str)
    (h : ∀ c ∈ s, p c = false) : replaceRuns p k s = s :=
  replaceRunsAux_no_match p k s h

theorem sanitize_text_chars_eq (s : Str) (m : Nat) :
    sanitize_text_chars s m =
      (if m ≠ 0 ∧ (stripWs (replaceRuns isPyWs 2 (replaceRuns isCrlfTab 1 s))).length < m
       then stripWs (replaceRuns isPyWs 2 (replaceRuns isCrlfTab 1 s)) ++
         List.replicate
           (m - (stripWs (replaceRuns isPyWs 2 (replaceRuns isCrlfTab 1 s))).length) ' '
       else stripWs (replaceRuns isPyWs 2 (replaceRuns isCrlfTab 1 s))) := rfl

theorem sanitize_chars_core_no_crlf (s : Str) :
    ∀ c ∈ stripWs (replaceRuns isPyWs 2 (replaceRuns isCrlfTab 1 s)),
      isCrlfTab c = false := by
  intro c hc
  have hc2 := mem_stripWs _ c hc
  rcases mem_replaceRunsAux isPyWs 2 _ [] c hc2 with h1 | h2 | h3
  · subst h1
    decide
  · simp at h2
  · rcases mem_replaceRunsAux_one isCrlfTab _ [] c h3 with h4 | h5
    · subst h4
      decide
    · exact h5

theorem sanitize_chars_idem (s : Str) (m : Nat) :
    sanitize_text_chars (sanitize_text_chars s m) m = sanitize_text_chars s m := by
  have hadj : noTwoAdj isPyWs
      (stripWs (replaceRuns isPyWs 2 (replaceRuns isCrlfTab 1 s))) = true :=
    noTwoAdj_stripWs isPyWs _ (noTwoAdj_replaceRunsAux isPyWs _ [])
  have hhead := stripWs_head? (replaceRuns isPyWs 2 (replaceRuns isCrlfTab 1 s))
  have hlast := stripWs_getLast? (replaceRuns isPyWs 2 (replaceRuns isCrlfTab 1 s))
  have hnocrlf := sanitize_chars_core_no_crlf s
  rw [sanitize_text_chars_eq s m]
  by_cases hcond : m ≠ 0 ∧
      (stripWs (replaceRuns isPyWs 2 (replaceRuns isCrlfTab 1 s))).length < m
  · rw [if_pos hcond]
    set t := stripWs (replaceRuns isPyWs 2 (replaceRuns isCrlfTab 1 s)) with ht
    have hk : 1 ≤ m - t.length := by omega
    rw [sanitize_text_chars_eq]
    have h1 : replaceRuns isCrlfTab 1 (t ++ List.replicate (m - t.length) ' ')
        = t ++ List.replicate (m - t.length) ' ' := by
      refine replaceRuns_no_match isCrlfTab 1 _ ?_
      intro c hc
      rcases List.mem_append.mp hc with h | h
      · exact hnocrlf c h
      · rw [List.eq_of_mem_replicate h]
        decide
    have h2 : replaceRuns isPyWs 2 (t ++ List.replicate (m - t.length) ' ')
        = t ++ [' '] :=
      replaceRunsAux_trailing_run isPyWs (by decide) t hadj hlast _ hk
    have h3 : stripWs (t ++ [' ']) = t :=
      stripWs_append_single_space t hhead hlast
    rw [h1, h2, h3, if_pos hcond]
  · rw [if_neg hcond]
    set t := stripWs (replaceRuns isPyWs 2 (replaceRuns isCrlfTab 1 s)) with ht
    rw [sanitize_text_chars_eq]
    have h1 : replaceRuns isCrlfTab 1 t = t :=
      replaceRuns_no_match isCrlfTab 1 t hnocrlf
    have h2 : replaceRuns isPyWs 2 t = t :=
      replaceRuns_id_of_noTwoAdj isPyWs t hadj
    have h3 : stripWs t = t := stripWs_eq_self t hhead hlast
    rw [h1, h2, h3, if_neg hcond]

/-- C6: _sanitize_text is idempotent: for every input value and every fixed
min_len, feeding the sanitized string back through _sanitize_text with the
same min_len returns it unchanged. -/
theorem C6_sanitize_idempotent (v : PyVal) (min_len : Nat) :
    sanitize_text_val (.str (sanitize_text_val v min_len)) min_len
      = sanitize_text_val v min_len := by
  show sanitize_text_chars
      (if (PyVal.str (sanitize_text_val v min_len)) = PyVal.none then []
       else pyStr (.str (sanitize_text_val v min_len))) min_len
    = sanitize_text_val v min_len
  rw [if_neg (by intro h; cases h)]
  show sanitize_text_chars (sanitize_text_val v min_len) min_len
    = sanitize_text_val v min_len
  unfold sanitize_text_val
  exact sanitize_chars_idem _ min_len

/-! ### C5: piece length bounds of _split_nota_string -/

theorem chunksOfFuel_nil (n k : Nat) : chunksOfFuel n k [] = [] := by
  cases k <;> simp [chunksOfFuel]

theorem chunksOfFuel_spec (n : Nat) (hn : n ≠ 0) :
    ∀ (k : Nat) (s : Str), s.length ≤ k →
      (∀ c ∈ chunksOfFuel n k s, 1 ≤ c.length ∧ c.length ≤ n) ∧
      (∀ c ∈ (chunksOfFuel n k s).dropLast, c.length = n) ∧
      (s ≠ [] → chunksOfFuel n k s ≠ []) := by
  intro k
  induction k with
  | zero =>
      intro s hs
      have hnil : s = [] := List.length_eq_zero.mp (Nat.le_zero.mp hs)
      subst hnil
      simp [chunksOfFuel]
  | succ k ih =>
      intro s hs
      by_cases hse : s = []
      · subst hse; simp [chunksOfFuel]
      · have hpos : 0 < s.length := List.length_pos.mpr hse
        have hie : s.isEmpty = false := by simpa [List.isEmpty_iff] using hse
        simp only [chunksOfFuel, hie, Bool.false_eq_true, if_false, hn]
        have hdl : (s.drop n).length ≤ k := by
          simp only [List.length_drop]
          omega
        obtain ⟨ihb, ihd, _⟩ := ih (s.drop n) hdl
        refine ⟨?_, ?_, ?_⟩
        · intro c hc
          rcases List.mem_cons.mp hc with rfl | hc2
          · refine ⟨?_, ?_⟩ <;> simp only [List.length_take] <;> omega
          · exact ihb c hc2
        · intro c hc
          rcases hr : chunksOfFuel n k (s.drop n) with _ | ⟨y, ys⟩
          · rw [hr] at hc
            simp at hc
          · rw [hr, List.dropLast_cons₂] at hc
            rcases List.mem_cons.mp hc with rfl | hc2
            · have hdne : s.drop n ≠ [] := by
                intro h0
                rw [h0, chunksOfFuel_nil] at hr
                simp at hr
              have hlt : n < s.length := by
                by_contra hge
                push_neg at hge
                exact hdne (List.drop_eq_nil_of_le hge)
              simp only [List.length_take]
              omega
            · exact ihd c (by rw [hr]; exact hc2)
        · intro _
          simp

theorem chunksOf_spec (n : Nat) (hn : n ≠ 0) (s : Str) :
    (∀ c ∈ chunksOf n s, 1 ≤ c.length ∧ c.length ≤ n) ∧
    (∀ c ∈ (chunksOf n s).dropLast, c.length = n) ∧
    (s ≠ [] → chunksOf n s ≠ []) :=
  chunksOfFuel_spec n hn s.length s (le_refl _)

theorem getLastD_append_single {α : Type} (l : List α) (x d : α) :
    (l ++ [x]).getLastD d = x := by
  simp [List.getLastD_eq_getLast?, List.getLast?_concat]

theorem exists_init_last2 {α : Type} (l : List α) (h : 2 ≤ l.length) :
    ∃ init a b, l = init ++ [a, b] := by
  rcases List.eq_nil_or_concat l with rfl | ⟨L, x, hL⟩
  · simp at h
  · rcases List.eq_nil_or_concat L with rfl | ⟨M, y, hM⟩
    · subst hL; simp at h
    · refine ⟨M, y, x, ?_⟩
      rw [hL, hM]
      simp

theorem mergeLastTwo_append (init : List Str) (a b : Str) :
    mergeLastTwo (init ++ [a, b]) = init ++ [a ++ b] := by
  induction init with
  | nil => rfl
  | cons x xs ih =>
      rcases hxs : xs ++ [a, b] with _ | ⟨y, ys⟩
      · exact absurd (congrArg List.length hxs) (by simp)
      · rcases hys : ys with _ | ⟨z, zs⟩
        · subst hys
          have hl := congrArg List.length hxs
          simp at hl
        · subst hys
          show mergeLastTwo (x :: (xs ++ [a, b])) = x :: (xs ++ [a ++ b])
          rw [hxs]
          show x :: mergeLastTwo (y :: z :: zs) = x :: (xs ++ [a ++ b])
          rw [← hxs, ih]

theorem postprocessChunks_spec (max_len min_piece : Nat) (hmp : min_piece ≤ max_len)
    (chunks : List Str) (hne : chunks ≠ [])
    (hb : ∀ c ∈ chunks, 1 ≤ c.length ∧ c.length ≤ max_len)
    (hd : ∀ c ∈ chunks.dropLast, c.length = max_len) :
    (∀ c ∈ postprocessChunks min_piece chunks,
        min_piece ≤ c.length ∧ c.length ≤ max_len + min_piece) ∧
    (∀ c ∈ (postprocessChunks min_piece chunks).dropLast, c.length ≤ max_len) := by
  unfold postprocessChunks
  by_cases hm : (chunks.getLastD []).length < min_piece ∧ 1 < chunks.length
  · obtain ⟨init, a, b, rfl⟩ := exists_init_last2 chunks (by omega)
    have hich : (init ++ [a, b]) = (init ++ [a]) ++ [b] := by simp
    have hblen : b.length < min_piece := by
      have := hm.1
      rw [hich, getLastD_append_single] at this
      exact this
    have hdl : (init ++ [a, b]).dropLast = init ++ [a] := by
      rw [hich, List.dropLast_concat]
    have halen : a.length = max_len :=
      hd a (by rw [hdl]; exact List.mem_append_right _ (by simp))
    have hinit : ∀ c ∈ init, c.length = max_len := fun c hc =>
      hd c (by rw [hdl]; exact List.mem_append_left _ hc)
    have hb1 : 1 ≤ b.length := (hb b (by simp)).1
    rw [if_pos hm, mergeLastTwo_append]
    have hmna : ¬((init ++ [a ++ b]).length = 1 ∧
        ((init ++ [a ++ b]).headD []).length < min_piece) := by
      rintro ⟨hl1, hhd⟩
      rcases init with _ | ⟨x, xs⟩
      · simp only [List.nil_append, List.headD_cons] at hhd
        rw [List.length_append, halen] at hhd
        omega
      · simp [List.length_append] at hl1
    rw [if_neg hmna]
    constructor
    · intro c hc
      rcases List.mem_append.mp hc with hc1 | hc2
      · have := hinit c hc1; omega
      · simp only [List.mem_singleton] at hc2
        subst hc2
        rw [List.length_append, halen]
        omega
    · intro c hc
      rw [List.dropLast_concat] at hc
      have := hinit c hc; omega
  · rw [if_neg hm]
    push_neg at hm
    by_cases hp : chunks.length = 1 ∧ (chunks.headD []).length < min_piece
    · rw [if_pos hp]
      obtain ⟨h1len, hhd⟩ := hp
      constructor
      · intro c hc
        simp only [List.mem_singleton] at hc
        subst hc
        rw [List.length_append, List.length_replicate]
        omega
      · intro c hc
        simp at hc
    · rw [if_neg hp]
      push_neg at hp
      constructor
      · intro c hc
        rcases List.eq_nil_or_concat chunks with rfl | ⟨L, x, hLx⟩
        · exact absurd rfl hne
        · rw [List.concat_eq_append] at hLx
          subst hLx
          rcases List.mem_append.mp hc with hc1 | hc2
          · have := hd c (by rw [List.dropLast_concat]; exact hc1)
            omega
          · simp only [List.mem_singleton] at hc2
            subst hc2
            by_cases hxlen : c.length < min_piece
            · have hlen1 : (L ++ [c]).length ≤ 1 :=
                hm (by rw [getLastD_append_single]; exact hxlen)
              have hL : L = [] := by
                rcases L with _ | _
                · rfl
                · simp at hlen1
              subst hL
              have hmin := hp (by simp)
              simp only [List.nil_append, List.headD_cons] at hmin
              omega
            · push_neg at hxlen
              have hub := (hb c (by simp)).2
              omega
      · intro c hc
        have := hd c hc; omega

/-- C5 (amended): provided min_piece ≤ max_len — as with the defaults 1000
and 15 — every piece returned by _split_nota_string has length at least
min_piece, every piece before the final one has length at most max_len, and
every piece (the merge target included) has length at most
max_len + min_piece.  In particular, with the default parameters every
piece of any result, multi-chunk results included, has length at least
15. -/
theorem C5_piece_length_bounds (max_len min_piece : Nat) (hml : 1 ≤ max_len)
    (hmp : min_piece ≤ max_len) (s : Str) :
    (∀ c ∈ split_nota_string s max_len min_piece,
        min_piece ≤ c.length ∧ c.length ≤ max_len + min_piece) ∧
    (∀ c ∈ (split_nota_string s max_len min_piece).dropLast, c.length ≤ max_len) := by
  simp only [split_nota_string]
  have hs2ne : (if (sanitize_text_chars s 0).isEmpty then
      "\x7b'OBS':'Sin observación'\x7d".data else sanitize_text_chars s 0) ≠ [] := by
    by_cases h : (sanitize_text_chars s 0).isEmpty
    · rw [if_pos h]; decide
    · rw [if_neg h]; simpa [List.isEmpty_iff] using h
  generalize hgen : (if (sanitize_text_chars s 0).isEmpty then
      "\x7b'OBS':'Sin observación'\x7d".data else sanitize_text_chars s 0) = s2 at hs2ne ⊢
  obtain ⟨hb, hd, hnil⟩ := chunksOf_spec max_len (by omega) s2
  have hcne : chunksOf max_len s2 ≠ [] := hnil hs2ne
  have hcie : (chunksOf max_len s2).isEmpty = false := by
    simpa [List.isEmpty_iff] using hcne
  rw [hcie]
  simp only [Bool.false_eq_true, if_false]
  exact postprocessChunks_spec max_len min_piece hmp _ hcne hb hd

/-- C5 witness: with the default parameters on a 25-character input, the
head piece of the result reaches the minimum length 15. -/
theorem C5_witness :
    15 ≤ ((split_nota_string (List.replicate 25 'a') 1000 15).headD []).length :=
  ((C5_piece_length_bounds 1000 15 (by decide) (by decide)
    (List.replicate 25 'a')).1 _ (by decide)).1

/-- C5 counterexample: with max_len 10 and min_piece 15 — parameters the
claim as stated does not exclude — the 25-character input splits into
pieces of lengths 10 and 15, so not every returned piece reaches
min_piece. -/
theorem C5_counterexample :
    ¬(∀ c ∈ split_nota_string (List.replicate 25 'a') 10 15, 15 ≤ c.length) := by
  decide

end NotasCreditos
